import Mathlib

/-!
# Verification of the Zyxel spreadsheet state engine

A shallow embedding of the workbook mutation model from
`src/hooks/useSpreadsheet.ts` (data model from `src/types/spreadsheet.types.ts`,
the `canMergeCells` guard from `src/components/Spreadsheet/SpreadsheetGrid.tsx`,
and the initial workbook state from `components/Spreadsheet/Spreadsheet.tsx`).

Modelling conventions:
* A cell key `"<row>-<col>"` is modelled as the pair `(row, col)` of naturals;
  the source only ever builds such keys with template strings and parses them
  back with `split("-")`, so the encoding is bijective on the keys in use.
* A JS `Record` object is modelled as an insertion-ordered association list
  (`RecM`): property update keeps the position of the key, property insertion
  appends, `delete` removes the binding.  JS object keys are unique, so
  removing every binding of a key coincides with `delete`.
* JS numbers that hold pixel sizes and font sizes are modelled as rationals;
  `Math.floor`/`Math.ceil` become `Int.floor`/`Int.ceil`.  (The only deviation:
  a zero `charsPerLine` makes JS produce `Infinity` where rational division
  yields `0`; no claim depends on the numeric value of a row height.)
* `JSON.parse(JSON.stringify(x))` is a deep copy producing a structurally
  equal, fresh value; on the pure values of this model it is the identity.
* React's functional `setState` updates are applied in queue order: a handler
  that calls `setState` (or `debouncedUpdate(fn, true)`) and then
  `saveToHistory()` first applies its own update and then the history append;
  a handler that uses the debounced path (`debouncedUpdate(fn)`, a 10 ms
  `setTimeout`) enqueues the history append *first* and the state update only
  when the timer fires, so the history append reads the pre-mutation state.
  Each handler is modelled as the composition of the two updates in the order
  they reach the state, assuming quiescence between handler invocations.
* JS object *identity* (references into a heap) is invisible to the pure
  model; a second, heap-explicit model of `handleCopy`/`handleMergeCells` is
  given further below to settle the clipboard-aliasing claim.
-/

/-- A cell key `"<row>-<col>"`, as the pair (row, col). -/
abbrev CellId := Nat × Nat

/-- `Record<K, V>` as an insertion-ordered association list. -/
abbrev RecM (K V : Type) := List (K × V)

namespace RecM

variable {K V : Type} [DecidableEq K]

/-- Property read `m[k]` (first binding wins; keys are unique in practice). -/
def get : RecM K V → K → Option V
  | [], _ => none
  | (k', v) :: rest, k => if k' = k then some v else get rest k

/-- Property write `m[k] = v`: update in place if present, else append. -/
def set : RecM K V → K → V → RecM K V
  | [], k, v => [(k, v)]
  | (k', v') :: rest, k, v =>
      if k' = k then (k', v) :: rest else (k', v') :: set rest k v

/-- Property removal `delete m[k]`.  Keys are unique in every object the
source builds, so removing all bindings of `k` coincides with JS `delete`. -/
def del (m : RecM K V) (k : K) : RecM K V :=
  m.filter (fun p => !(p.1 = k : Bool))

theorem get_set_self (m : RecM K V) (k : K) (v : V) :
    (m.set k v).get k = some v := by
  induction m with
  | nil => simp [set, get]
  | cons p rest ih =>
      by_cases h : p.1 = k
      · simp [set, h, get]
      · simp [set, h, get, ih]

theorem get_set_ne (m : RecM K V) {k k' : K} (v : V) (h : k' ≠ k) :
    (m.set k' v).get k = m.get k := by
  induction m with
  | nil => simp [set, get, h]
  | cons p rest ih =>
      by_cases hp : p.1 = k'
      · simp only [set, if_pos hp, get]
        rw [hp]
        simp [h]
      · simp only [set, if_neg hp, get]
        by_cases hpk : p.1 = k
        · simp [hpk]
        · simp [hpk, ih]

theorem get_del_self (m : RecM K V) (k : K) : (m.del k).get k = none := by
  induction m with
  | nil => simp [del, get]
  | cons p rest ih =>
      simp only [del, List.filter_cons] at *
      by_cases h : p.1 = k
      · simp [h, ih]
      · simp [h, get, ih]

theorem get_del_ne (m : RecM K V) {k k' : K} (h : k' ≠ k) :
    (m.del k').get k = m.get k := by
  induction m with
  | nil => simp [del, get]
  | cons p rest ih =>
      simp only [del, List.filter_cons] at *
      by_cases hp : p.1 = k'
      · have hpk : ¬p.1 = k := by rw [hp]; exact h
        simp [hp, get, hpk, ih, h]
      · simp [hp, get, ih]

theorem set_set (m : RecM K V) (k : K) (v₁ v₂ : V) :
    (m.set k v₁).set k v₂ = m.set k v₂ := by
  induction m with
  | nil => simp [set]
  | cons p rest ih =>
      by_cases h : p.1 = k
      · simp [set, h]
      · simp [set, h, ih]

end RecM

/-! ## Data model (`src/types/spreadsheet.types.ts`) -/

inductive NumberFormat
  | text | number | currency | percent | date | time
  deriving DecidableEq, Repr

inductive HorizontalAlign
  | left | center | right
  deriving DecidableEq, Repr

inductive VerticalAlign
  | top | middle | bottom
  deriving DecidableEq, Repr

inductive TextWrap
  | clip | wrap
  deriving DecidableEq, Repr

inductive BorderLineStyle
  | solid | dashed | dotted
  deriving DecidableEq, Repr

structure BorderStyle where
  top : Option Bool := none
  right : Option Bool := none
  bottom : Option Bool := none
  left : Option Bool := none
  color : Option String := none
  style : Option BorderLineStyle := none
  deriving DecidableEq, Repr

structure CellFormat where
  fontFamily : Option String := none
  fontSize : Option ℚ := none
  bold : Option Bool := none
  italic : Option Bool := none
  underline : Option Bool := none
  strikethrough : Option Bool := none
  textColor : Option String := none
  backgroundColor : Option String := none
  numberFormat : Option NumberFormat := none
  horizontalAlign : Option HorizontalAlign := none
  verticalAlign : Option VerticalAlign := none
  textWrap : Option TextWrap := none
  borders : Option BorderStyle := none
  deriving DecidableEq, Repr

structure CellLink where
  url : String
  title : String
  deriving DecidableEq, Repr

structure DropdownOption where
  value : String
  label : String
  backgroundColor : Option String := none
  textColor : Option String := none
  deriving DecidableEq, Repr

structure DropdownOptions where
  id : String
  options : List DropdownOption
  deriving DecidableEq, Repr

structure MergedCell where
  rowSpan : Nat
  colSpan : Nat
  isOrigin : Bool
  originCell : Option CellId := none
  deriving DecidableEq, Repr

structure Cell where
  id : CellId
  value : String
  formula : Option String := none
  format : Option CellFormat := none
  dropdown : Option DropdownOptions := none
  link : Option CellLink := none
  merged : Option MergedCell := none
  deriving DecidableEq, Repr

/-- `Sheet`.  The purely declarative optional flag `protected` of the TS
interface is never read or written anywhere in the repository and is omitted
(its name is reserved in Lean). -/
structure Sheet where
  id : String
  name : String
  color : Option String := none
  cells : RecM CellId Cell
  rowHeights : RecM Nat ℚ
  columnWidths : RecM Nat ℚ
  mergedCells : RecM CellId MergedCell
  defaultRowHeight : Option ℚ := none
  defaultColumnWidth : Option ℚ := none
  hidden : Option Bool := none
  deriving DecidableEq, Repr

structure HistoryEntry where
  sheets : List Sheet
  selectedCells : List CellId
  deriving DecidableEq, Repr

structure SpreadsheetState where
  sheets : List Sheet
  activeSheetId : String
  selectedCells : List CellId
  editingCell : Option CellId := none
  copiedCells : List Cell
  history : List HistoryEntry
  historyIndex : Int
  deriving DecidableEq, Repr

/-! ## Sizing (`useSpreadsheet.ts` constants and `calculateRowHeight`) -/

def DEFAULT_ROW_HEIGHT : ℚ := 30

def DEFAULT_COLUMN_WIDTH : ℚ := 100

/-- JS `x || d` on an optionally-present number: `undefined` and `0` are falsy. -/
def jsOrQ (x : Option ℚ) (d : ℚ) : ℚ :=
  match x with
  | none => d
  | some v => if v = 0 then d else v

/-- `calculateRowHeight(row, sheet)`: scan columns 0..25 of the row; every
wrap-enabled cell with truthy (non-empty) value contributes a required height
from a character-count approximation; result is the running maximum starting
from the row's stored (or default) height. -/
def calculateRowHeight (row : Nat) (sheet : Sheet) : ℚ :=
  (List.range 26).foldl
    (fun maxHeight col =>
      match sheet.cells.get (row, col) with
      | none => maxHeight
      | some cell =>
          match cell.format with
          | none => maxHeight
          | some fmt =>
              if fmt.textWrap = some TextWrap.wrap ∧ cell.value ≠ "" then
                let columnWidth := jsOrQ (sheet.columnWidths.get col) DEFAULT_COLUMN_WIDTH
                let fontSize := jsOrQ fmt.fontSize 14
                let lineHeight := fontSize * (3 / 2 : ℚ)
                let charsPerLine : ℤ := Int.floor (columnWidth / (fontSize * (3 / 5 : ℚ)))
                let lines : ℤ := Int.ceil ((cell.value.length : ℚ) / (charsPerLine : ℚ))
                let requiredHeight := max DEFAULT_ROW_HEIGHT ((lines : ℚ) * lineHeight + 8)
                max maxHeight requiredHeight
              else maxHeight)
    (jsOrQ (sheet.rowHeights.get row) DEFAULT_ROW_HEIGHT)

/-! ## The mutation engine (`src/hooks/useSpreadsheet.ts`) -/

/-- `prev.sheets.find((s) => s.id === prev.activeSheetId)`. -/
def findSheet (prev : SpreadsheetState) : Option Sheet :=
  prev.sheets.find? (fun s => s.id = prev.activeSheetId)

/-- The guard-and-map pattern shared verbatim by every sheet-local handler:
look up the active sheet, return `prev` unchanged when it is absent, otherwise
replace each sheet with a matching id by the updated sheet via
`prev.sheets.map ((s) => s.id === activeSheet.id ? updatedSheet : s)`. -/
def updActive (u : Sheet → SpreadsheetState → Sheet) (prev : SpreadsheetState) :
    SpreadsheetState :=
  match findSheet prev with
  | none => prev
  | some activeSheet =>
      let updatedSheet := u activeSheet prev
      { prev with
        sheets := prev.sheets.map fun s =>
          if s.id = activeSheet.id then updatedSheet else s }

/-- `saveToHistory`: truncate beyond the cursor (`slice(0, historyIndex + 1)`;
the cursor is never below `-1`, so this is a `take`), push a deep snapshot of
`{sheets, selectedCells}`, evict index 0 when the length exceeds 50, and point
the cursor at the last index. -/
def saveToHistoryFn (prev : SpreadsheetState) : SpreadsheetState :=
  let newHistory := prev.history.take (prev.historyIndex + 1).toNat
  let newHistory := newHistory ++ [⟨prev.sheets, prev.selectedCells⟩]
  let newHistory := if newHistory.length > 50 then newHistory.drop 1 else newHistory
  { prev with
    history := newHistory
    historyIndex := (newHistory.length : Int) - 1 }

/-- The state-update part of `handleCellChange`. -/
def handleCellChangeCore (cellId : CellId) (value : String) :
    SpreadsheetState → SpreadsheetState :=
  updActive fun activeSheet _ =>
    let existingCell := activeSheet.cells.get cellId
    let updatedCell : Cell :=
      { id := cellId
        value := value
        format := existingCell.bind fun c => c.format
        dropdown := existingCell.bind fun c => c.dropdown
        link := existingCell.bind fun c => c.link
        merged := existingCell.bind fun c => c.merged }
    let updatedSheet : Sheet :=
      { activeSheet with cells := activeSheet.cells.set cellId updatedCell }
    if (updatedCell.format.bind fun f => f.textWrap) = some TextWrap.wrap then
      let row := cellId.1
      let newHeight := calculateRowHeight row updatedSheet
      if newHeight > jsOrQ (updatedSheet.rowHeights.get row) DEFAULT_ROW_HEIGHT then
        { updatedSheet with rowHeights := updatedSheet.rowHeights.set row newHeight }
      else updatedSheet
    else updatedSheet

/-- `handleCellChange`: immediate update (`debouncedUpdate(..., true)`), then
`saveToHistory()` when `saveHistory` is set. -/
def handleCellChange (cellId : CellId) (value : String) (saveHistory : Bool)
    (prev : SpreadsheetState) : SpreadsheetState :=
  if saveHistory then saveToHistoryFn (handleCellChangeCore cellId value prev)
  else handleCellChangeCore cellId value prev

/-- Absolute assignment of one payload field (`Object.entries` visits only the
fields present in the payload; absent fields keep the existing value). -/
def setAbs {α : Type} (payloadField existingField : Option α) : Option α :=
  match payloadField with
  | some v => some v
  | none => existingField

/-- Assignment of one boolean-typed payload field: when the existing format
already holds a boolean there, the new value is its negation (the payload's
literal value is ignored); otherwise the literal payload value is written. -/
def setTog (payloadField existingField : Option Bool) : Option Bool :=
  match payloadField with
  | some v =>
      some (match existingField with
            | some existing => !existing
            | none => v)
  | none => existingField

/-- The `Object.entries(format).forEach` loop of `handleCellFormatChange`,
field by field.  `typeof value === "boolean"` holds exactly for the four
boolean-typed fields `bold`, `italic`, `underline`, `strikethrough`. -/
def applyFormatPayload (existingFormat payload : CellFormat) : CellFormat :=
  { fontFamily := setAbs payload.fontFamily existingFormat.fontFamily
    fontSize := setAbs payload.fontSize existingFormat.fontSize
    bold := setTog payload.bold existingFormat.bold
    italic := setTog payload.italic existingFormat.italic
    underline := setTog payload.underline existingFormat.underline
    strikethrough := setTog payload.strikethrough existingFormat.strikethrough
    textColor := setAbs payload.textColor existingFormat.textColor
    backgroundColor := setAbs payload.backgroundColor existingFormat.backgroundColor
    numberFormat := setAbs payload.numberFormat existingFormat.numberFormat
    horizontalAlign := setAbs payload.horizontalAlign existingFormat.horizontalAlign
    verticalAlign := setAbs payload.verticalAlign existingFormat.verticalAlign
    textWrap := setAbs payload.textWrap existingFormat.textWrap
    borders := setAbs payload.borders existingFormat.borders }

/-- Insertion into a JS `Set<number>` kept as an insertion-ordered list. -/
def insertSet (l : List Nat) (x : Nat) : List Nat :=
  if x ∈ l then l else l ++ [x]

/-- One iteration of the `cellIds.forEach` loop of `handleCellFormatChange`. -/
def formatStep (format : CellFormat) (acc : RecM CellId Cell × List Nat)
    (cellId : CellId) : RecM CellId Cell × List Nat :=
  let existingCell := (acc.1.get cellId).getD { id := cellId, value := "" }
  let existingFormat := existingCell.format.getD {}
  let newFormat := applyFormatPayload existingFormat format
  let cells := acc.1.set cellId { existingCell with format := some newFormat }
  let affectedRows :=
    if format.textWrap ≠ none then insertSet acc.2 cellId.1 else acc.2
  (cells, affectedRows)

/-- The state-update part of `handleCellFormatChange`. -/
def handleCellFormatChangeCore (cellIds : List CellId) (format : CellFormat) :
    SpreadsheetState → SpreadsheetState :=
  updActive fun activeSheet _ =>
    let folded := cellIds.foldl (formatStep format) (activeSheet.cells, ([] : List Nat))
    let updatedCells := folded.1
    let updatedRowHeights := folded.2.foldl
      (fun rh row => rh.set row (calculateRowHeight row { activeSheet with cells := updatedCells }))
      activeSheet.rowHeights
    { activeSheet with cells := updatedCells, rowHeights := updatedRowHeights }

/-- `handleCellFormatChange` uses the debounced path: the `saveToHistory`
append reaches the state first, the cell update when the 10 ms timer fires. -/
def handleCellFormatChange (cellIds : List CellId) (format : CellFormat)
    (prev : SpreadsheetState) : SpreadsheetState :=
  handleCellFormatChangeCore cellIds format (saveToHistoryFn prev)

/-- `Math.min` over the mapped row/column indices (the argument list is
non-empty whenever `handleMergeCells` runs, since it requires ≥ 2 keys). -/
def listMin : List Nat → Nat
  | [] => 0
  | x :: rest => rest.foldl Nat.min x

/-- `Math.max` over the mapped row/column indices. -/
def listMax : List Nat → Nat
  | [] => 0
  | x :: rest => rest.foldl Nat.max x

/-- The keys visited by the nested
`for (r = minRow; r <= maxRow; r++) for (c = minCol; c <= maxCol; c++)` loop,
in loop order: the full rectangle with top-left `(row, col)` and the given
spans. -/
def rectCellIds (row rowSpan col colSpan : Nat) : List CellId :=
  (List.range' row rowSpan).flatMap fun r =>
    (List.range' col colSpan).map fun c => (r, c)

/-- One iteration of the merge rectangle loop: record the member descriptor,
create a blank cell record when none exists
(`updatedCells[cellId] = { id, value: "" }`), then set the record's `merged`
field (in JS `updatedCells[cellId].merged = ...`, an in-place mutation of the
referenced object; at the value level the record now carries the
descriptor). -/
def mergeStep (originCellId : CellId) (memberDesc : MergedCell)
    (acc : RecM CellId MergedCell × RecM CellId Cell) (cellId : CellId) :
    RecM CellId MergedCell × RecM CellId Cell :=
  if cellId = originCellId then acc
  else
    let mc := acc.1.set cellId memberDesc
    let cells :=
      match acc.2.get cellId with
      | none => acc.2.set cellId { id := cellId, value := "" }
      | some _ => acc.2
    let cells :=
      match cells.get cellId with
      | some c => cells.set cellId { c with merged := some memberDesc }
      | none => cells
    (mc, cells)

/-- The final origin-cell update of `handleMergeCells`: create a blank record
at the origin if none exists (`updatedCells[originCellId] = { id, value: "" }`),
then set its `merged` field to the tracker's origin entry
(`updatedCells[originCellId].merged = updatedMergedCells[originCellId]`). -/
def ensureOriginMerged (originCellId : CellId) (mc : RecM CellId MergedCell)
    (cells : RecM CellId Cell) : RecM CellId Cell :=
  let cells :=
    match cells.get originCellId with
    | none => cells.set originCellId { id := originCellId, value := "" }
    | some _ => cells
  match cells.get originCellId with
  | some c => cells.set originCellId { c with merged := mc.get originCellId }
  | none => cells

/-- `handleMergeCells`: early return on fewer than 2 keys (no state update and
no history entry); otherwise compute the bounding box of the supplied keys,
write the origin descriptor at its top-left key and member descriptors (with
blank records where none existed) at every other rectangle key; immediate
`setState` followed by `saveToHistory()`. -/
def handleMergeCells (cellIds : List CellId) (prev : SpreadsheetState) :
    SpreadsheetState :=
  if cellIds.length < 2 then prev
  else
    saveToHistoryFn <|
      (updActive fun activeSheet _ =>
        let rows := cellIds.map fun id => id.1
        let cols := cellIds.map fun id => id.2
        let minRow := listMin rows
        let maxRow := listMax rows
        let minCol := listMin cols
        let maxCol := listMax cols
        let originCellId : CellId := (minRow, minCol)
        let rowSpan := maxRow + 1 - minRow
        let colSpan := maxCol + 1 - minCol
        let originDesc : MergedCell :=
          { rowSpan := rowSpan, colSpan := colSpan, isOrigin := true }
        let memberDesc : MergedCell :=
          { rowSpan := 1, colSpan := 1, isOrigin := false
            originCell := some originCellId }
        let mc0 := activeSheet.mergedCells.set originCellId originDesc
        let folded := (rectCellIds minRow rowSpan minCol colSpan).foldl
          (mergeStep originCellId memberDesc) (mc0, activeSheet.cells)
        let cells := ensureOriginMerged originCellId folded.1 folded.2
        { activeSheet with cells := cells, mergedCells := folded.1 })
      prev

/-- One iteration of the unmerge rectangle loop: delete the merge-tracker
entry and, when a cell record exists, delete its `merged` field
(`delete updatedCells[targetCellId].merged`, again in-place in JS). -/
def clearMergedStep (acc : RecM CellId MergedCell × RecM CellId Cell)
    (targetCellId : CellId) : RecM CellId MergedCell × RecM CellId Cell :=
  let mc := acc.1.del targetCellId
  let cells :=
    match acc.2.get targetCellId with
    | some c => acc.2.set targetCellId { c with merged := none }
    | none => acc.2
  (mc, cells)

/-- `handleUnmergeCells`: for each supplied key, clear the whole rectangle of
its merge (resolving members to their origin); immediate `setState` followed
by `saveToHistory()`.  The `else if (mergedInfo?.originCell)` truthiness test
is membership of `originCell`, since every key the source stores there is a
non-empty string. -/
def handleUnmergeCells (cellIds : List CellId) (prev : SpreadsheetState) :
    SpreadsheetState :=
  saveToHistoryFn <|
    (updActive fun activeSheet _ =>
      let step := fun (acc : RecM CellId MergedCell × RecM CellId Cell) cellId =>
        match acc.1.get cellId with
        | none => acc
        | some mergedInfo =>
            if mergedInfo.isOrigin then
              (rectCellIds cellId.1 mergedInfo.rowSpan cellId.2 mergedInfo.colSpan).foldl
                clearMergedStep acc
            else
              match mergedInfo.originCell with
              | some origin =>
                  (match acc.1.get origin with
                   | some originMerged =>
                       (rectCellIds origin.1 originMerged.rowSpan origin.2
                         originMerged.colSpan).foldl clearMergedStep acc
                   | none => acc)
              | none => acc
      let folded := cellIds.foldl step (activeSheet.mergedCells, activeSheet.cells)
      { activeSheet with cells := folded.2, mergedCells := folded.1 })
    prev

/-- `handleCellLinkChange` (immediate `setState`, then `saveToHistory()`);
`link: link || undefined` collapses `null` and `undefined` into `none`. -/
def handleCellLinkChange (cellId : CellId) (link : Option CellLink)
    (prev : SpreadsheetState) : SpreadsheetState :=
  saveToHistoryFn <|
    (updActive fun activeSheet _ =>
      let existingCell := (activeSheet.cells.get cellId).getD { id := cellId, value := "" }
      let updatedCell := { existingCell with link := link }
      { activeSheet with cells := activeSheet.cells.set cellId updatedCell })
    prev

/-- `handleCellDropdownChange` (immediate `setState`, then `saveToHistory()`):
sets or clears `dropdown`; a non-empty dropdown assigned to a cell with falsy
(empty) `value` auto-populates the first option's value. -/
def handleCellDropdownChange (cellId : CellId) (dropdown : Option DropdownOptions)
    (prev : SpreadsheetState) : SpreadsheetState :=
  saveToHistoryFn <|
    (updActive fun activeSheet _ =>
      let existingCell := (activeSheet.cells.get cellId).getD { id := cellId, value := "" }
      let updatedCell := { existingCell with dropdown := dropdown }
      let updatedCell :=
        match dropdown with
        | some d =>
            match d.options with
            | firstOption :: _ =>
                if existingCell.value = "" then { updatedCell with value := firstOption.value }
                else updatedCell
            | [] => updatedCell
        | none => updatedCell
      { activeSheet with cells := activeSheet.cells.set cellId updatedCell })
    prev

/-- The state-update part of `handleFillCells`: `sourceCellIds[0]` looked up
in the active sheet's cells (an empty source list reads
`cells[undefined] = undefined`); when absent the sheet is rebuilt with
value-identical maps, i.e. unchanged at the value level. -/
def handleFillCellsCore (sourceCellIds targetCellIds : List CellId) :
    SpreadsheetState → SpreadsheetState :=
  updActive fun activeSheet _ =>
    match sourceCellIds.head?.bind (fun k => activeSheet.cells.get k) with
    | none => activeSheet
    | some sourceCell =>
        let folded := targetCellIds.foldl
          (fun (acc : RecM CellId Cell × List Nat) cellId =>
            let cells := acc.1.set cellId
              { sourceCell with
                id := cellId
                value := sourceCell.value
                format := sourceCell.format
                dropdown := sourceCell.dropdown
                link := sourceCell.link }
            let affectedRows :=
              if (sourceCell.format.bind fun f => f.textWrap) = some TextWrap.wrap then
                insertSet acc.2 cellId.1
              else acc.2
            (cells, affectedRows))
          (activeSheet.cells, ([] : List Nat))
        let updatedRowHeights := folded.2.foldl
          (fun rh row => rh.set row (calculateRowHeight row { activeSheet with cells := folded.1 }))
          activeSheet.rowHeights
        { activeSheet with cells := folded.1, rowHeights := updatedRowHeights }

/-- `handleFillCells` uses the debounced path: history first, update second. -/
def handleFillCells (sourceCellIds targetCellIds : List CellId)
    (prev : SpreadsheetState) : SpreadsheetState :=
  handleFillCellsCore sourceCellIds targetCellIds (saveToHistoryFn prev)

/-- `handleCopy`: store into `copiedCells` the selected records in selection
order, with a blank placeholder `{ id, value: "" }` for unpopulated keys.  No
`saveToHistory` call.  (In JS the stored entries are object references; see
the heap model below.) -/
def handleCopy (prev : SpreadsheetState) : SpreadsheetState :=
  match findSheet prev with
  | none => prev
  | some activeSheet =>
      { prev with
        copiedCells := prev.selectedCells.map fun cellId =>
          (activeSheet.cells.get cellId).getD { id := cellId, value := "" } }

/-- One iteration of the `selectedCells.forEach((cellId, index))` paste loop:
the pair `p` is `(index, cellId)`; the looked-up index is always in range
because the clipboard is non-empty when the loop runs, so the `getD` default
is never read. -/
def pasteStep (copiedCells : List Cell) (acc : RecM CellId Cell × List Nat)
    (p : Nat × CellId) : RecM CellId Cell × List Nat :=
  let sourceCell := (copiedCells.get? (p.1 % copiedCells.length)).getD
    { id := p.2, value := "" }
  let cells := acc.1.set p.2 { sourceCell with id := p.2 }
  let affectedRows :=
    if (sourceCell.format.bind fun f => f.textWrap) = some TextWrap.wrap then
      insertSet acc.2 p.2.1
    else acc.2
  (cells, affectedRows)

/-- The state-update part of `handlePaste`: early return on an empty
clipboard, otherwise target index `i` receives
`{ ...copiedCells[i % copiedCells.length], id: cellId }`. -/
def handlePasteCore (prev : SpreadsheetState) : SpreadsheetState :=
  if prev.copiedCells.length = 0 then prev
  else
    (updActive fun activeSheet state =>
      let folded := state.selectedCells.enum.foldl (pasteStep state.copiedCells)
        (activeSheet.cells, ([] : List Nat))
      let updatedRowHeights := folded.2.foldl
        (fun rh row => rh.set row (calculateRowHeight row { activeSheet with cells := folded.1 }))
        activeSheet.rowHeights
      { activeSheet with cells := folded.1, rowHeights := updatedRowHeights })
    prev

/-- `handlePaste` uses the debounced path, and calls `saveToHistory()`
unconditionally — also when the clipboard is empty. -/
def handlePaste (prev : SpreadsheetState) : SpreadsheetState :=
  handlePasteCore (saveToHistoryFn prev)

/-- One iteration of the `selectedCells.forEach` delete loop. -/
def deleteStep (cells : RecM CellId Cell) (cellId : CellId) : RecM CellId Cell :=
  match cells.get cellId with
  | some c => cells.set cellId { c with value := "" }
  | none => cells.set cellId { id := cellId, value := "" }

/-- The state-update part of `handleDelete`: clear `value` of every selected
existing record; write a blank record `{ id, value: "" }` at every selected
key with no record. -/
def handleDeleteCore : SpreadsheetState → SpreadsheetState :=
  updActive fun activeSheet state =>
    let updatedCells := state.selectedCells.foldl deleteStep activeSheet.cells
    { activeSheet with cells := updatedCells }

/-- `handleDelete` uses the debounced path: history first, update second. -/
def handleDelete (prev : SpreadsheetState) : SpreadsheetState :=
  handleDeleteCore (saveToHistoryFn prev)

/-- `resizeColumn` (debounced update; no `saveToHistory` call at all). -/
def resizeColumn (col : Nat) (width : ℚ) : SpreadsheetState → SpreadsheetState :=
  updActive fun activeSheet _ =>
    { activeSheet with columnWidths := activeSheet.columnWidths.set col width }

/-- `resizeRow` (debounced update; no `saveToHistory` call at all). -/
def resizeRow (row : Nat) (height : ℚ) : SpreadsheetState → SpreadsheetState :=
  updActive fun activeSheet _ =>
    { activeSheet with rowHeights := activeSheet.rowHeights.set row height }

/-- `handleUndo`: when `historyIndex > 0`, step the cursor back one entry and
replace the live `sheets` and `selectedCells` by a deep copy (identity on the
pure values) of that entry, clearing `editingCell`; otherwise return the state
unchanged.  In every reachable state `0 ≤ newIndex < history.length`, so the
`getD` default is never read (JS would fault on an out-of-range cursor). -/
def handleUndo (prev : SpreadsheetState) : SpreadsheetState :=
  if prev.historyIndex > 0 then
    let newIndex := prev.historyIndex - 1
    let historyState := (prev.history.get? newIndex.toNat).getD ⟨[], []⟩
    { prev with
      sheets := historyState.sheets
      selectedCells := historyState.selectedCells
      historyIndex := newIndex
      editingCell := none }
  else prev

/-- `handleRedo`: symmetric to `handleUndo` at the upper boundary. -/
def handleRedo (prev : SpreadsheetState) : SpreadsheetState :=
  if prev.historyIndex < (prev.history.length : Int) - 1 then
    let newIndex := prev.historyIndex + 1
    let historyState := (prev.history.get? newIndex.toNat).getD ⟨[], []⟩
    { prev with
      sheets := historyState.sheets
      selectedCells := historyState.selectedCells
      historyIndex := newIndex
      editingCell := none }
  else prev

/-- `canMergeCells` from `SpreadsheetGrid.tsx`: at least 2 selected keys, no
selected key already part of a merge, and the selection fills its own
bounding box. -/
def canMergeCells (selectedCells : List CellId) (sheet : Sheet) : Bool :=
  if selectedCells.length < 2 then false
  else if selectedCells.any fun cellId => (sheet.mergedCells.get cellId).isSome then false
  else
    let rows := selectedCells.map fun id => id.1
    let cols := selectedCells.map fun id => id.2
    let expectedCount :=
      (listMax rows + 1 - listMin rows) * (listMax cols + 1 - listMin cols)
    selectedCells.length = expectedCount

/-- The initial workbook of `Spreadsheet.tsx`.  The literal `initialSheet`
omits `mergedCells`; spreading the resulting `undefined` yields `{}`, so the
map starts empty. -/
def initialState : SpreadsheetState :=
  { sheets := [{ id := "sheet-1", name := "Sheet1", cells := [], rowHeights := []
                 columnWidths := [], mergedCells := [] }]
    activeSheetId := "sheet-1"
    selectedCells := []
    editingCell := none
    copiedCells := []
    history := []
    historyIndex := -1 }

/-! ## The cell-level mutation commands as one syntactic type -/

/-- The cell-level mutation commands of the engine, each carrying the
arguments its handler takes. -/
inductive Mutation where
  | cellChange (cellId : CellId) (value : String) (saveHistory : Bool)
  | formatChange (cellIds : List CellId) (format : CellFormat)
  | mergeCells (cellIds : List CellId)
  | unmergeCells (cellIds : List CellId)
  | linkChange (cellId : CellId) (link : Option CellLink)
  | dropdownChange (cellId : CellId) (dropdown : Option DropdownOptions)
  | fillCells (sourceCellIds targetCellIds : List CellId)
  | paste
  | deleteSelection
  | resizeCol (col : Nat) (width : ℚ)
  | resizeRowCmd (row : Nat) (height : ℚ)

/-- Dispatch a mutation command to its handler. -/
def Mutation.apply : Mutation → SpreadsheetState → SpreadsheetState
  | .cellChange cellId value saveHistory => handleCellChange cellId value saveHistory
  | .formatChange cellIds format => handleCellFormatChange cellIds format
  | .mergeCells cellIds => handleMergeCells cellIds
  | .unmergeCells cellIds => handleUnmergeCells cellIds
  | .linkChange cellId link => handleCellLinkChange cellId link
  | .dropdownChange cellId dropdown => handleCellDropdownChange cellId dropdown
  | .fillCells sourceCellIds targetCellIds => handleFillCells sourceCellIds targetCellIds
  | .paste => handlePaste
  | .deleteSelection => handleDelete
  | .resizeCol col width => resizeColumn col width
  | .resizeRowCmd row height => resizeRow row height

/-- Commands whose handler applies its state update immediately
(`setState` or `debouncedUpdate(fn, true)`) before calling `saveToHistory`;
the rest go through the 10 ms debounce, so their history snapshot is taken
first. -/
def Mutation.isImmediate : Mutation → Bool
  | .cellChange _ _ _ => true
  | .mergeCells _ => true
  | .unmergeCells _ => true
  | .linkChange _ _ => true
  | .dropdownChange _ _ => true
  | _ => false

/-- Commands that reach `saveToHistory`: everything except the resize
handlers, a cell change with suppressed history, and a merge of fewer than 2
keys (whose handler returns before doing anything). -/
def Mutation.savesHistory : Mutation → Bool
  | .cellChange _ _ saveHistory => saveHistory
  | .mergeCells cellIds => decide (2 ≤ cellIds.length)
  | .resizeCol _ _ => false
  | .resizeRowCmd _ _ => false
  | _ => true

/-! ## Heap model of clipboard aliasing

JS objects are heap references: `handleCopy` stores
`activeSheet.cells[cellId]` — the reference itself — into `copiedCells`, and
`handleMergeCells` writes `updatedCells[cellId].merged = ...` through such a
reference (`{ ...activeSheet.cells }` copies only the key-to-reference map).
The pure model above is faithful for everything value-observable through the
state and its history (history snapshots are JSON deep copies), but the
clipboard decoupling claim is about object identity, so here cell records
live in an explicit heap and sheets map keys to addresses. -/

abbrev Addr := Nat

/-- A sheet in the heap model: cell records are stored by address. -/
structure HSheet where
  id : String
  cells : RecM CellId Addr
  mergedCells : RecM CellId MergedCell
  deriving DecidableEq, Repr

/-- The workbook fields relevant to the copy/merge interaction, with an
explicit heap of cell records and a fresh-address counter. -/
structure HState where
  sheets : List HSheet
  activeSheetId : String
  selectedCells : List CellId
  copiedCells : List Addr
  heap : RecM Addr Cell
  nextAddr : Addr
  deriving DecidableEq, Repr

def HState.findSheet (s : HState) : Option HSheet :=
  s.sheets.find? fun sh => sh.id = s.activeSheetId

/-- One iteration of the heap-model copy loop: an existing key contributes its
stored reference; `cells[cellId] || { id, value: "" }` allocates a fresh blank
object for a missing key (not inserted into any sheet). -/
def copyStepH (cells : RecM CellId Addr)
    (acc : List Addr × RecM Addr Cell × Addr) (cellId : CellId) :
    List Addr × RecM Addr Cell × Addr :=
  match cells.get cellId with
  | some addr => (acc.1 ++ [addr], acc.2.1, acc.2.2)
  | none =>
      (acc.1 ++ [acc.2.2],
       acc.2.1.set acc.2.2 { id := cellId, value := "" },
       acc.2.2 + 1)

/-- `handleCopy` in the heap model. -/
def handleCopyH (s : HState) : HState :=
  match s.findSheet with
  | none => s
  | some activeSheet =>
      let folded := s.selectedCells.foldl (copyStepH activeSheet.cells)
        (([] : List Addr), s.heap, s.nextAddr)
      { s with
        copiedCells := folded.1
        heap := folded.2.1
        nextAddr := folded.2.2 }

/-- In-place `obj.merged = desc` through a heap address. -/
def heapSetMerged (heap : RecM Addr Cell) (addr : Addr) (desc : Option MergedCell) :
    RecM Addr Cell :=
  match heap.get addr with
  | some c => heap.set addr { c with merged := desc }
  | none => heap

/-- Accumulator of the heap-model merge loop. -/
structure MergeAcc where
  mc : RecM CellId MergedCell
  cells : RecM CellId Addr
  heap : RecM Addr Cell
  nextAddr : Addr
  deriving DecidableEq, Repr

/-- One iteration of the heap-model merge rectangle loop: an existing record
is mutated in place through its shared address; a missing one is freshly
allocated. -/
def mergeStepH (originCellId : CellId) (memberDesc : MergedCell)
    (acc : MergeAcc) (cellId : CellId) : MergeAcc :=
  if cellId = originCellId then acc
  else
    let mc := acc.mc.set cellId memberDesc
    match acc.cells.get cellId with
    | some addr =>
        { acc with mc := mc, heap := heapSetMerged acc.heap addr (some memberDesc) }
    | none =>
        let addr := acc.nextAddr
        { mc := mc
          cells := acc.cells.set cellId addr
          heap := (acc.heap.set addr { id := cellId, value := "" }).set addr
            { id := cellId, value := "", merged := some memberDesc }
          nextAddr := addr + 1 }

/-- `handleMergeCells` in the heap model (history omitted: its snapshots are
deep copies and play no part in the aliasing claim). -/
def handleMergeCellsH (cellIds : List CellId) (s : HState) : HState :=
  if cellIds.length < 2 then s
  else
    match s.findSheet with
    | none => s
    | some activeSheet =>
        let rows := cellIds.map fun id => id.1
        let cols := cellIds.map fun id => id.2
        let minRow := listMin rows
        let maxRow := listMax rows
        let minCol := listMin cols
        let maxCol := listMax cols
        let originCellId : CellId := (minRow, minCol)
        let rowSpan := maxRow + 1 - minRow
        let colSpan := maxCol + 1 - minCol
        let originDesc : MergedCell :=
          { rowSpan := rowSpan, colSpan := colSpan, isOrigin := true }
        let memberDesc : MergedCell :=
          { rowSpan := 1, colSpan := 1, isOrigin := false
            originCell := some originCellId }
        let acc0 : MergeAcc :=
          { mc := activeSheet.mergedCells.set originCellId originDesc
            cells := activeSheet.cells
            heap := s.heap
            nextAddr := s.nextAddr }
        let acc1 := (rectCellIds minRow rowSpan minCol colSpan).foldl
          (mergeStepH originCellId memberDesc) acc0
        let acc2 :=
          match acc1.cells.get originCellId with
          | none =>
              { acc1 with
                cells := acc1.cells.set originCellId acc1.nextAddr
                heap := acc1.heap.set acc1.nextAddr { id := originCellId, value := "" }
                nextAddr := acc1.nextAddr + 1 }
          | some _ => acc1
        let acc3 :=
          match acc2.cells.get originCellId with
          | some addr =>
              { acc2 with heap := heapSetMerged acc2.heap addr (acc2.mc.get originCellId) }
          | none => acc2
        let updatedSheet : HSheet :=
          { activeSheet with cells := acc3.cells, mergedCells := acc3.mc }
        { s with
          sheets := s.sheets.map fun sh =>
            if sh.id = activeSheet.id then updatedSheet else sh
          heap := acc3.heap
          nextAddr := acc3.nextAddr }

/-- Reading the contents of clipboard entry `i` through the heap. -/
def readCopied (s : HState) (i : Nat) : Option Cell :=
  (s.copiedCells.get? i).bind s.heap.get

/-! ## Basic lemmas about the engine's building blocks -/

theorem saveToHistoryFn_sheets (s : SpreadsheetState) :
    (saveToHistoryFn s).sheets = s.sheets := rfl

theorem saveToHistoryFn_activeSheetId (s : SpreadsheetState) :
    (saveToHistoryFn s).activeSheetId = s.activeSheetId := rfl

theorem saveToHistoryFn_selectedCells (s : SpreadsheetState) :
    (saveToHistoryFn s).selectedCells = s.selectedCells := rfl

theorem saveToHistoryFn_copiedCells (s : SpreadsheetState) :
    (saveToHistoryFn s).copiedCells = s.copiedCells := rfl

theorem saveToHistoryFn_editingCell (s : SpreadsheetState) :
    (saveToHistoryFn s).editingCell = s.editingCell := rfl

theorem updActive_history (u : Sheet → SpreadsheetState → Sheet) (s : SpreadsheetState) :
    (updActive u s).history = s.history := by
  cases h : findSheet s <;> simp [updActive, h]

theorem updActive_historyIndex (u : Sheet → SpreadsheetState → Sheet) (s : SpreadsheetState) :
    (updActive u s).historyIndex = s.historyIndex := by
  cases h : findSheet s <;> simp [updActive, h]

theorem updActive_activeSheetId (u : Sheet → SpreadsheetState → Sheet) (s : SpreadsheetState) :
    (updActive u s).activeSheetId = s.activeSheetId := by
  cases h : findSheet s <;> simp [updActive, h]

theorem updActive_selectedCells (u : Sheet → SpreadsheetState → Sheet) (s : SpreadsheetState) :
    (updActive u s).selectedCells = s.selectedCells := by
  cases h : findSheet s <;> simp [updActive, h]

theorem updActive_copiedCells (u : Sheet → SpreadsheetState → Sheet) (s : SpreadsheetState) :
    (updActive u s).copiedCells = s.copiedCells := by
  cases h : findSheet s <;> simp [updActive, h]

theorem updActive_editingCell (u : Sheet → SpreadsheetState → Sheet) (s : SpreadsheetState) :
    (updActive u s).editingCell = s.editingCell := by
  cases h : findSheet s <;> simp [updActive, h]

/-- Every `updActive`-shaped handler changes only the `sheets` field. -/
theorem updActive_shape (u : Sheet → SpreadsheetState → Sheet) (s : SpreadsheetState) :
    updActive u s = { s with sheets := (updActive u s).sheets } := by
  cases h : findSheet s <;> simp [updActive, h]

/-- Replacing the found element (and any other element with its id) in a
`find?`-by-id list keeps the replacement findable, provided the replacement
keeps the id. -/
theorem find?_map_replace (l : List Sheet) (aid : String) (a u : Sheet)
    (hu : u.id = a.id)
    (h : l.find? (fun s => s.id = aid) = some a) :
    (l.map fun s => if s.id = a.id then u else s).find? (fun s => s.id = aid) =
      some u := by
  have ha : a.id = aid := by
    have := List.find?_some h
    simpa using this
  induction l with
  | nil => simp at h
  | cons hd tl ih =>
      rw [List.find?_cons] at h
      by_cases hhd : hd.id = aid
      · simp only [hhd] at h
        have : a = hd := by
          rw [show (decide True) = true from rfl] at h
          exact (Option.some_inj.mp h).symm
        subst this
        simp [List.map_cons, List.find?_cons, hu, ha, hhd]
      · have hdec : decide (hd.id = aid) = false := by
          simp [hhd]
        rw [hdec] at h
        have hne : ¬hd.id = a.id := by
          rw [ha]; exact hhd
        simp only [List.map_cons, if_neg hne, List.find?_cons, hdec]
        exact ih h

/-- The active sheet after an `updActive` handler is the updated sheet,
provided the update keeps the sheet id. -/
theorem findSheet_updActive (u : Sheet → SpreadsheetState → Sheet)
    (s : SpreadsheetState) (a : Sheet)
    (hu : (u a s).id = a.id)
    (h : findSheet s = some a) :
    findSheet (updActive u s) = some (u a s) := by
  unfold updActive
  rw [h]
  unfold findSheet at h ⊢
  simpa using find?_map_replace s.sheets s.activeSheetId a (u a s) hu h

/-- The active sheet is unaffected by the history append. -/
theorem findSheet_save (s : SpreadsheetState) :
    findSheet (saveToHistoryFn s) = findSheet s := rfl

/-- `handleUndo` at the lower boundary is a no-op. -/
theorem handleUndo_noop (s : SpreadsheetState) (h : s.historyIndex ≤ 0) :
    handleUndo s = s := by
  unfold handleUndo
  rw [if_neg (by omega)]

/-- `handleRedo` at the upper boundary is a no-op. -/
theorem handleRedo_noop (s : SpreadsheetState)
    (h : (s.history.length : Int) - 1 ≤ s.historyIndex) :
    handleRedo s = s := by
  unfold handleRedo
  rw [if_neg (by omega)]

/-- A successful `handleUndo` step. -/
theorem handleUndo_succ (s : SpreadsheetState) (e : HistoryEntry)
    (h0 : 0 < s.historyIndex)
    (hget : s.history.get? (s.historyIndex - 1).toNat = some e) :
    handleUndo s =
      { s with
        sheets := e.sheets
        selectedCells := e.selectedCells
        historyIndex := s.historyIndex - 1
        editingCell := none } := by
  unfold handleUndo
  rw [if_pos h0]
  simp only [hget, Option.getD_some]

/-- A successful `handleRedo` step. -/
theorem handleRedo_succ (s : SpreadsheetState) (e : HistoryEntry)
    (h0 : s.historyIndex < (s.history.length : Int) - 1)
    (hget : s.history.get? (s.historyIndex + 1).toNat = some e) :
    handleRedo s =
      { s with
        sheets := e.sheets
        selectedCells := e.selectedCells
        historyIndex := s.historyIndex + 1
        editingCell := none } := by
  unfold handleRedo
  rw [if_pos h0]
  simp only [hget, Option.getD_some]

/-- The history produced by `saveToHistory`: truncate at the cursor, append
the snapshot, evict index 0 when the capacity of 50 is exceeded. -/
theorem save_history_eq (s : SpreadsheetState) :
    (saveToHistoryFn s).history =
      if (s.history.take (s.historyIndex + 1).toNat).length + 1 > 50 then
        (s.history.take (s.historyIndex + 1).toNat ++
          [({ sheets := s.sheets, selectedCells := s.selectedCells } : HistoryEntry)]).drop 1
      else
        s.history.take (s.historyIndex + 1).toNat ++
          [({ sheets := s.sheets, selectedCells := s.selectedCells } : HistoryEntry)] := by
  unfold saveToHistoryFn
  simp [List.length_append]

/-- `saveToHistory` points the cursor at the last history index. -/
theorem save_idx_eq (s : SpreadsheetState) :
    (saveToHistoryFn s).historyIndex = ((saveToHistoryFn s).history.length : Int) - 1 :=
  rfl

/-- Index exactly at the length of the prefix reads the appended element. -/
theorem getElem?_append_self {α : Type} (l : List α) (a : α) (i : Nat)
    (h : i = l.length) : (l ++ [a])[i]? = some a := by
  subst h
  exact List.getElem?_concat_length l a

/-- After `saveToHistory` runs on a state `p` whose cursor sits at position
`n` on some entry `e`, one `handleUndo` restores `e` and a following
`handleRedo` restores `p`'s own sheets and selection (the snapshot the save
pushed). -/
theorem save_undo_redo (p : SpreadsheetState) (n : Nat) (e : HistoryEntry)
    (hidx : p.historyIndex = (n : Int))
    (hget : p.history.get? n = some e) :
    (handleUndo (saveToHistoryFn p)).sheets = e.sheets ∧
    (handleUndo (saveToHistoryFn p)).selectedCells = e.selectedCells ∧
    (handleRedo (handleUndo (saveToHistoryFn p))).sheets = p.sheets ∧
    (handleRedo (handleUndo (saveToHistoryFn p))).selectedCells = p.selectedCells := by
  have hn : n < p.history.length := by
    by_contra hc
    push_neg at hc
    rw [List.get?_eq_getElem?, List.getElem?_eq_none hc] at hget
    exact Option.noConfusion hget
  have htoNat : (p.historyIndex + 1).toNat = n + 1 := by rw [hidx]; omega
  have hTlen : (p.history.take (n + 1)).length = n + 1 := by
    rw [List.length_take]; omega
  have hTget : (p.history.take (n + 1)).get? n = some e := by
    rw [List.get?_eq_getElem?, List.getElem?_take_of_lt (Nat.lt_succ_self n),
      ← List.get?_eq_getElem?]
    exact hget
  have hhist : (saveToHistoryFn p).history =
      if (p.history.take (n + 1)).length + 1 > 50 then
        (p.history.take (n + 1) ++
          [({ sheets := p.sheets, selectedCells := p.selectedCells } : HistoryEntry)]).drop 1
      else
        p.history.take (n + 1) ++
          [({ sheets := p.sheets, selectedCells := p.selectedCells } : HistoryEntry)] := by
    rw [save_history_eq, htoNat]
  by_cases hbig : (p.history.take (n + 1)).length + 1 > 50
  · -- capacity reached: index 0 is evicted
    rw [if_pos hbig] at hhist
    have hn1 : 1 ≤ n := by omega
    have hdrop : (p.history.take (n + 1) ++
        [({ sheets := p.sheets, selectedCells := p.selectedCells } : HistoryEntry)]).drop 1 =
        (p.history.take (n + 1)).drop 1 ++
          [({ sheets := p.sheets, selectedCells := p.selectedCells } : HistoryEntry)] :=
      List.drop_append_of_le_length (by omega)
    rw [hdrop] at hhist
    have hlen : (saveToHistoryFn p).history.length = n + 1 := by
      rw [hhist, List.length_append, List.length_drop, hTlen, List.length_singleton]
      omega
    have hidx' : (saveToHistoryFn p).historyIndex = (n : Int) := by
      rw [save_idx_eq, hlen]; omega
    have hgetu : (saveToHistoryFn p).history.get?
        ((saveToHistoryFn p).historyIndex - 1).toNat = some e := by
      rw [hidx']
      have h1 : ((n : Int) - 1).toNat = n - 1 := by omega
      rw [h1, hhist, List.get?_eq_getElem?,
        List.getElem?_append_left (by rw [List.length_drop, hTlen]; omega),
        List.getElem?_drop]
      have h2 : 1 + (n - 1) = n := by omega
      rw [h2, ← List.get?_eq_getElem?]
      exact hTget
    have hundo := handleUndo_succ (saveToHistoryFn p) e (by rw [hidx']; omega) hgetu
    rw [hundo]
    refine ⟨rfl, rfl, ?_, ?_⟩ <;>
    · have hguard : ({ saveToHistoryFn p with
          sheets := e.sheets
          selectedCells := e.selectedCells
          historyIndex := (saveToHistoryFn p).historyIndex - 1
          editingCell := none } : SpreadsheetState).historyIndex <
          ((({ saveToHistoryFn p with
            sheets := e.sheets
            selectedCells := e.selectedCells
            historyIndex := (saveToHistoryFn p).historyIndex - 1
            editingCell := none } : SpreadsheetState).history.length : Int)) - 1 := by
        show (saveToHistoryFn p).historyIndex - 1 <
          (((saveToHistoryFn p).history.length : Int)) - 1
        rw [hidx', hlen]; omega
      have hgetr : ({ saveToHistoryFn p with
          sheets := e.sheets
          selectedCells := e.selectedCells
          historyIndex := (saveToHistoryFn p).historyIndex - 1
          editingCell := none } : SpreadsheetState).history.get?
          (({ saveToHistoryFn p with
            sheets := e.sheets
            selectedCells := e.selectedCells
            historyIndex := (saveToHistoryFn p).historyIndex - 1
            editingCell := none } : SpreadsheetState).historyIndex + 1).toNat =
          some ({ sheets := p.sheets, selectedCells := p.selectedCells } : HistoryEntry) := by
        show (saveToHistoryFn p).history.get?
          ((saveToHistoryFn p).historyIndex - 1 + 1).toNat = _
        rw [hidx']
        have h3 : ((n : Int) - 1 + 1).toNat = n := by omega
        rw [h3, hhist, List.get?_eq_getElem?]
        exact getElem?_append_self _ _ _ (by rw [List.length_drop, hTlen]; omega)
      rw [handleRedo_succ _ _ hguard hgetr]
  · -- still under capacity
    rw [if_neg hbig] at hhist
    have hlen : (saveToHistoryFn p).history.length = n + 2 := by
      rw [hhist, List.length_append, hTlen, List.length_singleton]
    have hidx' : (saveToHistoryFn p).historyIndex = (n : Int) + 1 := by
      rw [save_idx_eq, hlen]; omega
    have hgetu : (saveToHistoryFn p).history.get?
        ((saveToHistoryFn p).historyIndex - 1).toNat = some e := by
      rw [hidx']
      have h1 : ((n : Int) + 1 - 1).toNat = n := by omega
      rw [h1, hhist, List.get?_eq_getElem?,
        List.getElem?_append_left (by omega : n < (p.history.take (n + 1)).length),
        ← List.get?_eq_getElem?]
      exact hTget
    have hundo := handleUndo_succ (saveToHistoryFn p) e (by rw [hidx']; omega) hgetu
    rw [hundo]
    refine ⟨rfl, rfl, ?_, ?_⟩ <;>
    · have hguard : ({ saveToHistoryFn p with
          sheets := e.sheets
          selectedCells := e.selectedCells
          historyIndex := (saveToHistoryFn p).historyIndex - 1
          editingCell := none } : SpreadsheetState).historyIndex <
          ((({ saveToHistoryFn p with
            sheets := e.sheets
            selectedCells := e.selectedCells
            historyIndex := (saveToHistoryFn p).historyIndex - 1
            editingCell := none } : SpreadsheetState).history.length : Int)) - 1 := by
        show (saveToHistoryFn p).historyIndex - 1 <
          (((saveToHistoryFn p).history.length : Int)) - 1
        rw [hidx', hlen]; omega
      have hgetr : ({ saveToHistoryFn p with
          sheets := e.sheets
          selectedCells := e.selectedCells
          historyIndex := (saveToHistoryFn p).historyIndex - 1
          editingCell := none } : SpreadsheetState).history.get?
          (({ saveToHistoryFn p with
            sheets := e.sheets
            selectedCells := e.selectedCells
            historyIndex := (saveToHistoryFn p).historyIndex - 1
            editingCell := none } : SpreadsheetState).historyIndex + 1).toNat =
          some ({ sheets := p.sheets, selectedCells := p.selectedCells } : HistoryEntry) := by
        show (saveToHistoryFn p).history.get?
          ((saveToHistoryFn p).historyIndex - 1 + 1).toNat = _
        rw [hidx']
        have h3 : ((n : Int) + 1 - 1 + 1).toNat = n + 1 := by omega
        rw [h3, hhist, List.get?_eq_getElem?]
        exact getElem?_append_self _ _ _ hTlen.symm
      rw [handleRedo_succ _ _ hguard hgetr]

/-! ## Claim C1: undo/redo inverse round trip -/

/-- Amended claim C1: for every **immediate** history-producing mutation M
(cell value edit, merge, unmerge, link change, dropdown change — the handlers
that apply their state update before calling `saveToHistory`), starting from a
workbook state S within the retained history window (the cursor points at a
snapshot of S's sheets and selection), M followed by `undo` yields a state
whose `sheets` and `selectedCells` equal those of S, and `undo` followed by
`redo` yields a state whose `sheets` and `selectedCells` equal those of the
state immediately after M.  (In the pure model the deep copies of the source
are identities, so deep equality is equality.)  The debounced mutations
(format, fill, paste, delete) snapshot the pre-mutation state instead and
break the redo half — see the counterexample. -/
theorem claimC1_immediate_roundtrip (m : Mutation) (s : SpreadsheetState) (n : Nat)
    (him : m.isImmediate = true) (hsh : m.savesHistory = true)
    (hidx : s.historyIndex = (n : Int))
    (hget : s.history.get? n = some ⟨s.sheets, s.selectedCells⟩) :
    (handleUndo (m.apply s)).sheets = s.sheets ∧
    (handleUndo (m.apply s)).selectedCells = s.selectedCells ∧
    (handleRedo (handleUndo (m.apply s))).sheets = (m.apply s).sheets ∧
    (handleRedo (handleUndo (m.apply s))).selectedCells = (m.apply s).selectedCells := by
  cases m with
  | cellChange c v b =>
      simp only [Mutation.savesHistory] at hsh
      subst hsh
      exact save_undo_redo (handleCellChangeCore c v s) n ⟨s.sheets, s.selectedCells⟩
        ((updActive_historyIndex _ s).trans hidx)
        (by rw [show (handleCellChangeCore c v s).history = s.history from
              updActive_history _ s]; exact hget)
  | mergeCells ks =>
      simp only [Mutation.savesHistory, decide_eq_true_eq] at hsh
      have happ : Mutation.apply (.mergeCells ks) s = handleMergeCells ks s := rfl
      rw [happ]
      unfold handleMergeCells
      rw [if_neg (by omega)]
      exact save_undo_redo _ n ⟨s.sheets, s.selectedCells⟩
        ((updActive_historyIndex _ s).trans hidx)
        (by rw [updActive_history]; exact hget)
  | unmergeCells ks =>
      exact save_undo_redo (updActive _ s) n ⟨s.sheets, s.selectedCells⟩
        ((updActive_historyIndex _ s).trans hidx)
        (by rw [updActive_history]; exact hget)
  | linkChange c lk =>
      exact save_undo_redo (updActive _ s) n ⟨s.sheets, s.selectedCells⟩
        ((updActive_historyIndex _ s).trans hidx)
        (by rw [updActive_history]; exact hget)
  | dropdownChange c dd =>
      exact save_undo_redo (updActive _ s) n ⟨s.sheets, s.selectedCells⟩
        ((updActive_historyIndex _ s).trans hidx)
        (by rw [updActive_history]; exact hget)
  | formatChange ks f => simp [Mutation.isImmediate] at him
  | fillCells a b => simp [Mutation.isImmediate] at him
  | paste => simp [Mutation.isImmediate] at him
  | deleteSelection => simp [Mutation.isImmediate] at him
  | resizeCol a b => simp [Mutation.isImmediate] at him
  | resizeRowCmd a b => simp [Mutation.isImmediate] at him

/-- A one-sheet workbook holding `"x"` at cell (0,0). -/
def cexSheet : Sheet :=
  { id := "sheet-1", name := "Sheet1"
    cells := [((0, 0), { id := (0, 0), value := "x" })]
    rowHeights := [], columnWidths := [], mergedCells := [] }

/-- A state in steady history position: the cursor points at a snapshot of
the live sheets and selection. -/
def cexState : SpreadsheetState :=
  { sheets := [cexSheet]
    activeSheetId := "sheet-1"
    selectedCells := [(0, 0)]
    editingCell := none
    copiedCells := []
    history := [⟨[cexSheet], [(0, 0)]⟩]
    historyIndex := 0 }

/-- Claim C1 counterexample: for the debounced mutation
`applyFormat([(0,0)], {bold: true})`, `undo` then `redo` does **not**
reproduce the state immediately after the mutation — the history snapshot was
taken before the debounced update, so redo restores the pre-mutation sheets
(bold still absent). -/
theorem claimC1_counterexample :
    (handleRedo (handleUndo
        (handleCellFormatChange [(0, 0)] { bold := some true } cexState))).sheets ≠
      (handleCellFormatChange [(0, 0)] { bold := some true } cexState).sheets := by
  decide

/-- Witness for C1 at a concrete immediate mutation (a link change). -/
theorem claimC1_witness :
    (handleUndo ((Mutation.linkChange (0, 0)
        (some { url := "https://a", title := "a" })).apply cexState)).sheets =
      cexState.sheets ∧
    (handleUndo ((Mutation.linkChange (0, 0)
        (some { url := "https://a", title := "a" })).apply cexState)).selectedCells =
      cexState.selectedCells ∧
    (handleRedo (handleUndo ((Mutation.linkChange (0, 0)
        (some { url := "https://a", title := "a" })).apply cexState))).sheets =
      ((Mutation.linkChange (0, 0)
        (some { url := "https://a", title := "a" })).apply cexState).sheets ∧
    (handleRedo (handleUndo ((Mutation.linkChange (0, 0)
        (some { url := "https://a", title := "a" })).apply cexState))).selectedCells =
      ((Mutation.linkChange (0, 0)
        (some { url := "https://a", title := "a" })).apply cexState).selectedCells :=
  claimC1_immediate_roundtrip _ cexState 0 rfl rfl rfl (by decide)

/-! ## Claim C2: saveToHistory semantics and the history bound -/

/-- The invariant the history stack maintains: at most 50 entries, cursor on
the last index. -/
def HistInv (s : SpreadsheetState) : Prop :=
  s.history.length ≤ 50 ∧ s.historyIndex = (s.history.length : Int) - 1

theorem histInv_save (s : SpreadsheetState) (h : s.history.length ≤ 50) :
    HistInv (saveToHistoryFn s) := by
  constructor
  · rw [save_history_eq]
    have ht : (s.history.take (s.historyIndex + 1).toNat).length ≤ 50 := by
      rw [List.length_take]; omega
    by_cases hc : (s.history.take (s.historyIndex + 1).toNat).length + 1 > 50
    · rw [if_pos hc]
      rw [List.length_drop, List.length_append, List.length_singleton]
      omega
    · rw [if_neg hc]
      rw [List.length_append, List.length_singleton]
      omega
  · exact save_idx_eq s

theorem histInv_updActive (u : Sheet → SpreadsheetState → Sheet)
    (s : SpreadsheetState) (h : HistInv s) : HistInv (updActive u s) := by
  constructor
  · rw [updActive_history]; exact h.1
  · rw [updActive_historyIndex, updActive_history]; exact h.2

theorem histInv_length_updActive (u : Sheet → SpreadsheetState → Sheet)
    (s : SpreadsheetState) : (updActive u s).history.length = s.history.length := by
  rw [updActive_history]

/-- Every mutation command preserves the history invariant. -/
theorem histInv_apply (m : Mutation) (s : SpreadsheetState) (h : HistInv s) :
    HistInv (m.apply s) := by
  cases m with
  | cellChange c v b =>
      have hh : ∀ v', (handleCellChangeCore c v' s).history = s.history := by
        intro v'
        unfold handleCellChangeCore
        exact updActive_history _ s
      have hi : ∀ v', (handleCellChangeCore c v' s).historyIndex = s.historyIndex := by
        intro v'
        unfold handleCellChangeCore
        exact updActive_historyIndex _ s
      cases b with
      | true =>
          exact histInv_save _ (by rw [hh]; exact h.1)
      | false =>
          show HistInv (handleCellChangeCore c v s)
          exact ⟨by rw [hh]; exact h.1, by rw [hi, hh]; exact h.2⟩
  | formatChange ks f =>
      exact histInv_updActive _ _ (histInv_save s h.1)
  | mergeCells ks =>
      show HistInv (handleMergeCells ks s)
      unfold handleMergeCells
      by_cases hk : ks.length < 2
      · rw [if_pos hk]; exact h
      · rw [if_neg hk]
        exact histInv_save _ (by rw [histInv_length_updActive]; exact h.1)
  | unmergeCells ks =>
      exact histInv_save _ (by rw [histInv_length_updActive]; exact h.1)
  | linkChange c lk =>
      exact histInv_save _ (by rw [histInv_length_updActive]; exact h.1)
  | dropdownChange c dd =>
      exact histInv_save _ (by rw [histInv_length_updActive]; exact h.1)
  | fillCells a b =>
      exact histInv_updActive _ _ (histInv_save s h.1)
  | paste =>
      show HistInv (handlePasteCore (saveToHistoryFn s))
      unfold handlePasteCore
      by_cases hc : (saveToHistoryFn s).copiedCells.length = 0
      · rw [if_pos hc]; exact histInv_save s h.1
      · rw [if_neg hc]; exact histInv_updActive _ _ (histInv_save s h.1)
  | deleteSelection =>
      exact histInv_updActive _ _ (histInv_save s h.1)
  | resizeCol a b => exact histInv_updActive _ _ h
  | resizeRowCmd a b => exact histInv_updActive _ _ h

theorem histInv_foldl (ms : List Mutation) (s : SpreadsheetState) (h : HistInv s) :
    HistInv (ms.foldl (fun st m => m.apply st) s) := by
  induction ms generalizing s with
  | nil => exact h
  | cons m rest ih => exact ih _ (histInv_apply m s h)

/-- Claim C2: `saveToHistory` truncates beyond the cursor, appends a snapshot
of `{sheets, selectedCells}`, evicts index 0 whenever the length would exceed
50, and points the cursor at the last index; consequently after any sequence
of mutation commands from the initial workbook, `history.length ≤ 50` and
`historyIndex = history.length - 1`. -/
theorem claimC2_saveToHistory :
    (∀ s : SpreadsheetState,
      (saveToHistoryFn s).history.getLast? = some ⟨s.sheets, s.selectedCells⟩ ∧
      (saveToHistoryFn s).historyIndex =
        ((saveToHistoryFn s).history.length : Int) - 1 ∧
      (saveToHistoryFn s).history.dropLast =
        (if (s.history.take (s.historyIndex + 1).toNat).length + 1 > 50 then
          (s.history.take (s.historyIndex + 1).toNat).drop 1
        else s.history.take (s.historyIndex + 1).toNat) ∧
      (s.history.length ≤ 50 → (saveToHistoryFn s).history.length ≤ 50)) ∧
    (∀ ms : List Mutation,
      (ms.foldl (fun st m => m.apply st) initialState).history.length ≤ 50 ∧
      (ms.foldl (fun st m => m.apply st) initialState).historyIndex =
        ((ms.foldl (fun st m => m.apply st) initialState).history.length : Int) - 1) := by
  constructor
  · intro s
    refine ⟨?_, save_idx_eq s, ?_, fun h => (histInv_save s h).1⟩
    · rw [save_history_eq]
      by_cases hc : (s.history.take (s.historyIndex + 1).toNat).length + 1 > 50
      · rw [if_pos hc]
        rw [List.drop_append_of_le_length (by omega)]
        exact List.getLast?_concat _
      · rw [if_neg hc]
        exact List.getLast?_concat _
    · rw [save_history_eq]
      by_cases hc : (s.history.take (s.historyIndex + 1).toNat).length + 1 > 50
      · rw [if_pos hc, if_pos hc]
        rw [List.drop_append_of_le_length (by omega)]
        exact List.dropLast_concat
      · rw [if_neg hc, if_neg hc]
        exact List.dropLast_concat
  · intro ms
    have h : HistInv (ms.foldl (fun st m => m.apply st) initialState) :=
      histInv_foldl ms initialState (by constructor <;> simp [initialState])
    exact ⟨h.1, h.2⟩

/-- Witness for C2 at a concrete state and a concrete mutation sequence. -/
theorem claimC2_witness :
    cexState.history.length ≤ 50 ∧
    (saveToHistoryFn cexState).history.length ≤ 50 ∧
    ([Mutation.paste, Mutation.deleteSelection].foldl
      (fun st m => m.apply st) initialState).history.length ≤ 50 :=
  ⟨by decide, (claimC2_saveToHistory.1 cexState).2.2.2 (by decide),
    (claimC2_saveToHistory.2 [Mutation.paste, Mutation.deleteSelection]).1⟩

/-! ## Claim C3: undo/redo operation semantics -/

/-- Claim C3: `handleUndo` is a no-op when `historyIndex ≤ 0` and `handleRedo`
is a no-op when `historyIndex ≥ history.length - 1`; on success each moves the
cursor by exactly one and replaces the live `sheets` and `selectedCells` with
(a deep copy of — the identity on pure values) the snapshot at the new index,
clearing `editingCell`. -/
theorem claimC3_undo_redo_semantics :
    ∀ s : SpreadsheetState,
      (s.historyIndex ≤ 0 → handleUndo s = s) ∧
      ((s.history.length : Int) - 1 ≤ s.historyIndex → handleRedo s = s) ∧
      (∀ e : HistoryEntry, 0 < s.historyIndex →
        s.history.get? (s.historyIndex - 1).toNat = some e →
        handleUndo s =
          { s with
            sheets := e.sheets
            selectedCells := e.selectedCells
            historyIndex := s.historyIndex - 1
            editingCell := none }) ∧
      (∀ e : HistoryEntry, s.historyIndex < (s.history.length : Int) - 1 →
        s.history.get? (s.historyIndex + 1).toNat = some e →
        handleRedo s =
          { s with
            sheets := e.sheets
            selectedCells := e.selectedCells
            historyIndex := s.historyIndex + 1
            editingCell := none }) :=
  fun s =>
    ⟨handleUndo_noop s, handleRedo_noop s,
     fun e h1 h2 => handleUndo_succ s e h1 h2,
     fun e h1 h2 => handleRedo_succ s e h1 h2⟩

/-- A state two entries deep with the cursor on the last entry. -/
def cexState2 : SpreadsheetState :=
  { cexState with
    history := [⟨[], []⟩, ⟨[cexSheet], [(0, 0)]⟩]
    historyIndex := 1 }

/-- A state two entries deep with the cursor on the first entry. -/
def cexState3 : SpreadsheetState :=
  { cexState2 with historyIndex := 0 }

/-- Witness for C3: both no-op boundaries and both success cases at concrete
states. -/
theorem claimC3_witness :
    handleUndo cexState = cexState ∧
    handleRedo cexState2 = cexState2 ∧
    handleUndo cexState2 =
      { cexState2 with
        sheets := []
        selectedCells := []
        historyIndex := 0
        editingCell := none } ∧
    handleRedo cexState3 =
      { cexState3 with
        sheets := [cexSheet]
        selectedCells := [(0, 0)]
        historyIndex := 1
        editingCell := none } :=
  ⟨(claimC3_undo_redo_semantics cexState).1 (by decide),
   (claimC3_undo_redo_semantics cexState2).2.1 (by decide),
   (claimC3_undo_redo_semantics cexState2).2.2.1 ⟨[], []⟩ (by decide) (by decide),
   (claimC3_undo_redo_semantics cexState3).2.2.2 ⟨[cexSheet], [(0, 0)]⟩
     (by decide) (by decide)⟩

/-! ## Claim C10: active-sheet frame property -/

/-- The frame relation between an input state `s` and an output state `t` of
a cell-level mutation: `activeSheetId`, selection, clipboard and editing
pointer are untouched; the sheet list keeps its length and the id at every
position; every sheet whose id differs from `activeSheetId` is kept unchanged
at its position; and when no sheet matches `activeSheetId` the sheet list
itself is unchanged. -/
def FrameP (s t : SpreadsheetState) : Prop :=
  t.activeSheetId = s.activeSheetId ∧
  t.selectedCells = s.selectedCells ∧
  t.copiedCells = s.copiedCells ∧
  t.editingCell = s.editingCell ∧
  t.sheets.length = s.sheets.length ∧
  (∀ i, (t.sheets.get? i).map Sheet.id = (s.sheets.get? i).map Sheet.id) ∧
  (∀ i sh, s.sheets.get? i = some sh → sh.id ≠ s.activeSheetId →
    t.sheets.get? i = some sh) ∧
  (findSheet s = none → t.sheets = s.sheets)

theorem findSheet_congr (s t : SpreadsheetState) (hs : t.sheets = s.sheets)
    (ha : t.activeSheetId = s.activeSheetId) : findSheet t = findSheet s := by
  unfold findSheet
  rw [hs, ha]

theorem frameP_refl (s : SpreadsheetState) : FrameP s s :=
  ⟨rfl, rfl, rfl, rfl, rfl, fun _ => rfl, fun _ _ hi _ => hi, fun _ => rfl⟩

theorem frameP_trans {s t v : SpreadsheetState}
    (hst : FrameP s t) (htv : FrameP t v) : FrameP s v := by
  obtain ⟨f1, f2, f3, f4, f5, f6, f7, f8⟩ := hst
  obtain ⟨g1, g2, g3, g4, g5, g6, g7, g8⟩ := htv
  refine ⟨g1.trans f1, g2.trans f2, g3.trans f3, g4.trans f4, g5.trans f5,
    fun i => (g6 i).trans (f6 i), ?_, ?_⟩
  · intro i sh hi hne
    exact g7 i sh (f7 i sh hi hne) (by rw [f1]; exact hne)
  · intro hnone
    have hfs : t.sheets = s.sheets := f8 hnone
    have ht2 : findSheet t = none := by
      rw [findSheet_congr s t hfs f1]
      exact hnone
    rw [g8 ht2, hfs]

theorem frameP_save (s : SpreadsheetState) : FrameP s (saveToHistoryFn s) :=
  ⟨rfl, rfl, rfl, rfl, rfl, fun _ => rfl, fun _ _ hi _ => hi, fun _ => rfl⟩

theorem frameP_updActive (u : Sheet → SpreadsheetState → Sheet)
    (hu : ∀ a st, (u a st).id = a.id) (s : SpreadsheetState) :
    FrameP s (updActive u s) := by
  cases hfind : findSheet s with
  | none =>
      have he : updActive u s = s := by
        unfold updActive
        rw [hfind]
      rw [he]
      exact frameP_refl s
  | some a =>
      have haid : a.id = s.activeSheetId := by
        have := List.find?_some hfind
        simpa using this
      have he : updActive u s =
          { s with sheets := s.sheets.map fun sh =>
              if sh.id = a.id then u a s else sh } := by
        unfold updActive
        rw [hfind]
      rw [he]
      refine ⟨rfl, rfl, rfl, rfl, List.length_map _ _, ?_, ?_, ?_⟩
      · intro i
        rw [List.get?_map]
        cases hi : s.sheets.get? i with
        | none => rfl
        | some sh =>
            show some (if sh.id = a.id then u a s else sh).id = some sh.id
            by_cases hc : sh.id = a.id
            · rw [if_pos hc, hu a s, hc]
            · rw [if_neg hc]
      · intro i sh hi hne
        rw [List.get?_map, hi]
        have hc : ¬sh.id = a.id := fun hcc => hne (by rw [← haid]; exact hcc)
        show some (if sh.id = a.id then u a s else sh) = some sh
        rw [if_neg hc]
      · intro hnone
        simp [hfind] at hnone

theorem frameP_pasteCore (s : SpreadsheetState) : FrameP s (handlePasteCore s) := by
  unfold handlePasteCore
  by_cases hc : s.copiedCells.length = 0
  · rw [if_pos hc]
    exact frameP_refl s
  · rw [if_neg hc]
    refine frameP_updActive _ ?_ s
    intro a st
    rfl

/-- Amended claim C10: every cell-level mutation command stands in the frame
relation `FrameP` to its input — it preserves `activeSheetId`, the sheet order
and ids, every sheet whose id differs from `activeSheetId`, and the selection,
clipboard and editing pointer; when no sheet matches `activeSheetId` the sheet
list is returned unchanged.  (The original claim's "the operation returns the
state unchanged" is too strong: the history-producing commands still append a
history entry in that case — see the counterexample.) -/
theorem claimC10_frame (m : Mutation) (s : SpreadsheetState) :
    FrameP s (m.apply s) := by
  cases m with
  | cellChange c v b =>
      cases b with
      | true =>
          refine frameP_trans (frameP_updActive _ ?_ s) (frameP_save _)
          intro a st
          dsimp only
          split
          · split <;> rfl
          · rfl
      | false =>
          show FrameP s (handleCellChangeCore c v s)
          refine frameP_updActive _ ?_ s
          intro a st
          dsimp only
          split
          · split <;> rfl
          · rfl
  | formatChange ks f =>
      refine frameP_trans (frameP_save s) (frameP_updActive _ ?_ _)
      intro a st
      rfl
  | mergeCells ks =>
      show FrameP s (handleMergeCells ks s)
      unfold handleMergeCells
      by_cases hk : ks.length < 2
      · rw [if_pos hk]
        exact frameP_refl s
      · rw [if_neg hk]
        refine frameP_trans (frameP_updActive _ ?_ s) (frameP_save _)
        intro a st
        rfl
  | unmergeCells ks =>
      refine frameP_trans (frameP_updActive _ ?_ s) (frameP_save _)
      intro a st
      rfl
  | linkChange c lk =>
      refine frameP_trans (frameP_updActive _ ?_ s) (frameP_save _)
      intro a st
      rfl
  | dropdownChange c dd =>
      refine frameP_trans (frameP_updActive _ ?_ s) (frameP_save _)
      intro a st
      rfl
  | fillCells src tgt =>
      refine frameP_trans (frameP_save s) (frameP_updActive _ ?_ _)
      intro a st
      dsimp only
      split <;> rfl
  | paste =>
      exact frameP_trans (frameP_save s) (frameP_pasteCore _)
  | deleteSelection =>
      refine frameP_trans (frameP_save s) (frameP_updActive _ ?_ _)
      intro a st
      rfl
  | resizeCol col w =>
      refine frameP_updActive _ ?_ s
      intro a st
      rfl
  | resizeRowCmd r hgt =>
      refine frameP_updActive _ ?_ s
      intro a st
      rfl

/-- A workbook whose `activeSheetId` matches no sheet. -/
def cexNoSheet : SpreadsheetState :=
  { sheets := []
    activeSheetId := "sheet-1"
    selectedCells := [(0, 0), (0, 1)]
    editingCell := none
    copiedCells := []
    history := []
    historyIndex := -1 }

/-- Claim C10 counterexample: with no matching active sheet, `mergeCells` does
**not** return the state unchanged — its unconditional `saveToHistory()` still
appends a history entry. -/
theorem claimC10_counterexample :
    (Mutation.mergeCells [(0, 0), (0, 1)]).apply cexNoSheet ≠ cexNoSheet := by
  decide

/-- A second sheet, untouched by mutations while `sheet-1` is active. -/
def otherSheet : Sheet :=
  { id := "sheet-2", name := "Sheet2"
    cells := [((3, 3), { id := (3, 3), value := "keep" })]
    rowHeights := [], columnWidths := [], mergedCells := [] }

/-- A two-sheet workbook with `sheet-1` active. -/
def cexTwoSheets : SpreadsheetState :=
  { cexState with sheets := [cexSheet, otherSheet] }

/-- Witness for C10: a paste into the active sheet leaves the inactive sheet
untouched at its position, and on a workbook with no matching sheet the sheet
list is unchanged. -/
theorem claimC10_witness :
    ((Mutation.paste).apply cexTwoSheets).activeSheetId = cexTwoSheets.activeSheetId ∧
    ((Mutation.paste).apply cexTwoSheets).sheets.get? 1 = some otherSheet ∧
    ((Mutation.paste).apply cexNoSheet).sheets = cexNoSheet.sheets :=
  ⟨(claimC10_frame .paste cexTwoSheets).1,
   (claimC10_frame .paste cexTwoSheets).2.2.2.2.2.2.1 1 otherSheet
     (by decide) (by decide),
   (claimC10_frame .paste cexNoSheet).2.2.2.2.2.2.2 (by decide)⟩

/-! ## Pointwise characterization of the rectangle and selection loops -/

/-- The blank record `{ id, value: "" }` the handlers create on demand. -/
def blankCell (k : CellId) : Cell := { id := k, value := "" }

theorem Cell.update_merged_eq_self (c : Cell) (d : Option MergedCell)
    (h : c.merged = d) : ({ c with merged := d } : Cell) = c := by
  cases c
  cases h
  rfl

theorem Cell.update_value_eq_self (c : Cell) (h : c.value = "") :
    ({ c with value := "" } : Cell) = c := by
  cases c
  cases h
  rfl

theorem mergeStep_mc_of_ne (o : CellId) (mem : MergedCell)
    (acc : RecM CellId MergedCell × RecM CellId Cell) (h k : CellId)
    (hne : h ≠ k) : (mergeStep o mem acc h).1.get k = acc.1.get k := by
  unfold mergeStep
  by_cases ho : h = o
  · rw [if_pos ho]
  · rw [if_neg ho]
    exact RecM.get_set_ne _ _ hne

theorem mergeStep_mc_self (o : CellId) (mem : MergedCell)
    (acc : RecM CellId MergedCell × RecM CellId Cell) (k : CellId)
    (hko : k ≠ o) : (mergeStep o mem acc k).1.get k = some mem := by
  unfold mergeStep
  rw [if_neg hko]
  exact RecM.get_set_self _ _ _

theorem mergeStep_cells_of_ne (o : CellId) (mem : MergedCell)
    (acc : RecM CellId MergedCell × RecM CellId Cell) (h k : CellId)
    (hne : h ≠ k) : (mergeStep o mem acc h).2.get k = acc.2.get k := by
  unfold mergeStep
  by_cases ho : h = o
  · rw [if_pos ho]
  · rw [if_neg ho]
    cases h1 : acc.2.get h with
    | none =>
        simp only [h1, RecM.get_set_self]
        rw [RecM.get_set_ne _ _ hne, RecM.get_set_ne _ _ hne]
    | some c =>
        simp only [h1]
        rw [RecM.get_set_ne _ _ hne]

theorem mergeStep_cells_self (o : CellId) (mem : MergedCell)
    (acc : RecM CellId MergedCell × RecM CellId Cell) (k : CellId)
    (hko : k ≠ o) :
    (mergeStep o mem acc k).2.get k =
      some { ((acc.2.get k).getD (blankCell k)) with merged := some mem } := by
  unfold mergeStep
  rw [if_neg hko]
  cases h1 : acc.2.get k with
  | none =>
      simp only [h1, RecM.get_set_self, RecM.set_set, Option.getD_none]
      rfl
  | some c =>
      simp only [h1, Option.getD_some]
      rw [RecM.get_set_self]

theorem mergeStep_mc_pres (o : CellId) (mem : MergedCell)
    (acc : RecM CellId MergedCell × RecM CellId Cell) (h k : CellId)
    (hk : acc.1.get k = some mem) : (mergeStep o mem acc h).1.get k = some mem := by
  by_cases hne : h = k
  · subst hne
    by_cases ho : h = o
    · unfold mergeStep
      rw [if_pos ho]
      exact hk
    · rw [mergeStep_mc_self o mem acc h ho]
  · rw [mergeStep_mc_of_ne o mem acc h k hne]
    exact hk

theorem mergeStep_cells_pres (o : CellId) (mem : MergedCell)
    (acc : RecM CellId MergedCell × RecM CellId Cell) (h k : CellId) (c : Cell)
    (hc : acc.2.get k = some c) (hm : c.merged = some mem) :
    (mergeStep o mem acc h).2.get k = some c := by
  by_cases hne : h = k
  · subst hne
    by_cases ho : h = o
    · unfold mergeStep
      rw [if_pos ho]
      exact hc
    · rw [mergeStep_cells_self o mem acc h ho, hc]
      simp only [Option.getD_some]
      rw [Cell.update_merged_eq_self c _ hm]
  · rw [mergeStep_cells_of_ne o mem acc h k hne]
    exact hc

theorem mergeFold_mc_pres (o : CellId) (mem : MergedCell) (l : List CellId) :
    ∀ (acc : RecM CellId MergedCell × RecM CellId Cell) (k : CellId),
      acc.1.get k = some mem →
      (l.foldl (mergeStep o mem) acc).1.get k = some mem := by
  induction l with
  | nil => intro acc k hk; exact hk
  | cons h rest ih =>
      intro acc k hk
      exact ih _ k (mergeStep_mc_pres o mem acc h k hk)

theorem mergeFold_cells_pres (o : CellId) (mem : MergedCell) (l : List CellId) :
    ∀ (acc : RecM CellId MergedCell × RecM CellId Cell) (k : CellId) (c : Cell),
      acc.2.get k = some c → c.merged = some mem →
      (l.foldl (mergeStep o mem) acc).2.get k = some c := by
  induction l with
  | nil => intro acc k c hc _; exact hc
  | cons h rest ih =>
      intro acc k c hc hm
      exact ih _ k c (mergeStep_cells_pres o mem acc h k c hc hm) hm

theorem mergeFold_mc_keep_o (o : CellId) (mem : MergedCell) (l : List CellId) :
    ∀ (acc : RecM CellId MergedCell × RecM CellId Cell),
      (l.foldl (mergeStep o mem) acc).1.get o = acc.1.get o := by
  induction l with
  | nil => intro acc; rfl
  | cons h rest ih =>
      intro acc
      rw [List.foldl_cons, ih]
      by_cases ho : h = o
      · unfold mergeStep
        rw [if_pos ho]
      · exact mergeStep_mc_of_ne o mem acc h o ho

theorem mergeFold_cells_keep_o (o : CellId) (mem : MergedCell) (l : List CellId) :
    ∀ (acc : RecM CellId MergedCell × RecM CellId Cell),
      (l.foldl (mergeStep o mem) acc).2.get o = acc.2.get o := by
  induction l with
  | nil => intro acc; rfl
  | cons h rest ih =>
      intro acc
      rw [List.foldl_cons, ih]
      by_cases ho : h = o
      · unfold mergeStep
        rw [if_pos ho]
      · exact mergeStep_cells_of_ne o mem acc h o ho

theorem mergeFold_mc_mem (o : CellId) (mem : MergedCell) (l : List CellId) :
    ∀ (acc : RecM CellId MergedCell × RecM CellId Cell) (k : CellId),
      k ∈ l → k ≠ o →
      (l.foldl (mergeStep o mem) acc).1.get k = some mem := by
  induction l with
  | nil => intro acc k hk _; exact absurd hk (List.not_mem_nil k)
  | cons h rest ih =>
      intro acc k hk hko
      by_cases hhk : h = k
      · subst hhk
        rw [List.foldl_cons]
        exact mergeFold_mc_pres o mem rest _ h (mergeStep_mc_self o mem acc h hko)
      · have hk' : k ∈ rest := by
          cases List.mem_cons.mp hk with
          | inl he => exact absurd he.symm hhk
          | inr hm => exact hm
        rw [List.foldl_cons]
        exact ih _ k hk' hko

theorem mergeFold_cells_mem (o : CellId) (mem : MergedCell) (l : List CellId) :
    ∀ (acc : RecM CellId MergedCell × RecM CellId Cell) (k : CellId),
      k ∈ l → k ≠ o →
      (l.foldl (mergeStep o mem) acc).2.get k =
        some { ((acc.2.get k).getD (blankCell k)) with merged := some mem } := by
  induction l with
  | nil => intro acc k hk _; exact absurd hk (List.not_mem_nil k)
  | cons h rest ih =>
      intro acc k hk hko
      by_cases hhk : h = k
      · subst hhk
        rw [List.foldl_cons]
        exact mergeFold_cells_pres o mem rest _ h _
          (mergeStep_cells_self o mem acc h hko) rfl
      · have hk' : k ∈ rest := by
          cases List.mem_cons.mp hk with
          | inl he => exact absurd he.symm hhk
          | inr hm => exact hm
        rw [List.foldl_cons]
        have := ih (mergeStep o mem acc h) k hk' hko
        rw [mergeStep_cells_of_ne o mem acc h k hhk] at this
        exact this

theorem clearStep_mc_self (acc : RecM CellId MergedCell × RecM CellId Cell)
    (k : CellId) : (clearMergedStep acc k).1.get k = none :=
  RecM.get_del_self _ _

theorem clearStep_mc_of_ne (acc : RecM CellId MergedCell × RecM CellId Cell)
    (h k : CellId) (hne : h ≠ k) :
    (clearMergedStep acc h).1.get k = acc.1.get k :=
  RecM.get_del_ne _ hne

theorem clearStep_cells_self (acc : RecM CellId MergedCell × RecM CellId Cell)
    (k : CellId) :
    (clearMergedStep acc k).2.get k =
      (acc.2.get k).map (fun c => { c with merged := none }) := by
  unfold clearMergedStep
  cases h1 : acc.2.get k with
  | none => simp only [h1, Option.map_none']
  | some c =>
      simp only [h1, Option.map_some']
      rw [RecM.get_set_self]

theorem clearStep_cells_of_ne (acc : RecM CellId MergedCell × RecM CellId Cell)
    (h k : CellId) (hne : h ≠ k) :
    (clearMergedStep acc h).2.get k = acc.2.get k := by
  unfold clearMergedStep
  cases h1 : acc.2.get h with
  | none => simp only [h1]
  | some c =>
      simp only [h1]
      rw [RecM.get_set_ne _ _ hne]

theorem clearStep_mc_pres_none (acc : RecM CellId MergedCell × RecM CellId Cell)
    (h k : CellId) (hk : acc.1.get k = none) :
    (clearMergedStep acc h).1.get k = none := by
  by_cases hne : h = k
  · subst hne
    exact clearStep_mc_self acc h
  · rw [clearStep_mc_of_ne acc h k hne]
    exact hk

theorem clearStep_cells_pres (acc : RecM CellId MergedCell × RecM CellId Cell)
    (h k : CellId) (c : Cell) (hc : acc.2.get k = some c) (hm : c.merged = none) :
    (clearMergedStep acc h).2.get k = some c := by
  by_cases hne : h = k
  · subst hne
    rw [clearStep_cells_self acc h, hc]
    simp only [Option.map_some']
    rw [Cell.update_merged_eq_self c _ hm]
  · rw [clearStep_cells_of_ne acc h k hne]
    exact hc

theorem clearStep_cells_pres_none (acc : RecM CellId MergedCell × RecM CellId Cell)
    (h k : CellId) (hc : acc.2.get k = none) :
    (clearMergedStep acc h).2.get k = none := by
  by_cases hne : h = k
  · subst hne
    rw [clearStep_cells_self acc h, hc]
    rfl
  · rw [clearStep_cells_of_ne acc h k hne]
    exact hc

theorem clearFold_mc_pres_none (l : List CellId) :
    ∀ (acc : RecM CellId MergedCell × RecM CellId Cell) (k : CellId),
      acc.1.get k = none →
      (l.foldl clearMergedStep acc).1.get k = none := by
  induction l with
  | nil => intro acc k hk; exact hk
  | cons h rest ih =>
      intro acc k hk
      exact ih _ k (clearStep_mc_pres_none acc h k hk)

theorem clearFold_cells_pres (l : List CellId) :
    ∀ (acc : RecM CellId MergedCell × RecM CellId Cell) (k : CellId) (c : Cell),
      acc.2.get k = some c → c.merged = none →
      (l.foldl clearMergedStep acc).2.get k = some c := by
  induction l with
  | nil => intro acc k c hc _; exact hc
  | cons h rest ih =>
      intro acc k c hc hm
      exact ih _ k c (clearStep_cells_pres acc h k c hc hm) hm

theorem clearFold_cells_pres_none (l : List CellId) :
    ∀ (acc : RecM CellId MergedCell × RecM CellId Cell) (k : CellId),
      acc.2.get k = none →
      (l.foldl clearMergedStep acc).2.get k = none := by
  induction l with
  | nil => intro acc k hk; exact hk
  | cons h rest ih =>
      intro acc k hk
      exact ih _ k (clearStep_cells_pres_none acc h k hk)

theorem clearFold_mc_mem (l : List CellId) :
    ∀ (acc : RecM CellId MergedCell × RecM CellId Cell) (k : CellId),
      k ∈ l → (l.foldl clearMergedStep acc).1.get k = none := by
  induction l with
  | nil => intro acc k hk; exact absurd hk (List.not_mem_nil k)
  | cons h rest ih =>
      intro acc k hk
      by_cases hhk : h = k
      · subst hhk
        rw [List.foldl_cons]
        exact clearFold_mc_pres_none rest _ h (clearStep_mc_self acc h)
      · have hk' : k ∈ rest := by
          cases List.mem_cons.mp hk with
          | inl he => exact absurd he.symm hhk
          | inr hm => exact hm
        rw [List.foldl_cons]
        exact ih _ k hk'

theorem clearFold_cells_mem (l : List CellId) :
    ∀ (acc : RecM CellId MergedCell × RecM CellId Cell) (k : CellId),
      k ∈ l →
      (l.foldl clearMergedStep acc).2.get k =
        (acc.2.get k).map (fun c => { c with merged := none }) := by
  induction l with
  | nil => intro acc k hk; exact absurd hk (List.not_mem_nil k)
  | cons h rest ih =>
      intro acc k hk
      by_cases hhk : h = k
      · subst hhk
        rw [List.foldl_cons]
        cases h1 : acc.2.get h with
        | none =>
            simp only [Option.map_none']
            refine clearFold_cells_pres_none rest _ h ?_
            rw [clearStep_cells_self acc h, h1]
            rfl
        | some c =>
            simp only [Option.map_some']
            refine clearFold_cells_pres rest _ h _ ?_ rfl
            rw [clearStep_cells_self acc h, h1]
            rfl
      · have hk' : k ∈ rest := by
          cases List.mem_cons.mp hk with
          | inl he => exact absurd he.symm hhk
          | inr hm => exact hm
        rw [List.foldl_cons]
        have := ih (clearMergedStep acc h) k hk'
        rw [clearStep_cells_of_ne acc h k hhk] at this
        exact this

/-- The record `handleCellFormatChange` writes at one key, as a function of
the previous record at that key. -/
def fmtCell (payload : CellFormat) (o : Option Cell) (k : CellId) : Cell :=
  let existingCell := o.getD (blankCell k)
  { existingCell with
    format := some (applyFormatPayload (existingCell.format.getD {}) payload) }

theorem formatStep_cells_self (payload : CellFormat)
    (acc : RecM CellId Cell × List Nat) (k : CellId) :
    (formatStep payload acc k).1.get k = some (fmtCell payload (acc.1.get k) k) :=
  RecM.get_set_self _ _ _

theorem formatStep_cells_of_ne (payload : CellFormat)
    (acc : RecM CellId Cell × List Nat) (h k : CellId) (hne : h ≠ k) :
    (formatStep payload acc h).1.get k = acc.1.get k :=
  RecM.get_set_ne _ _ hne

theorem fmtFold_notmem (payload : CellFormat) (l : List CellId) :
    ∀ (acc : RecM CellId Cell × List Nat) (k : CellId), k ∉ l →
      (l.foldl (formatStep payload) acc).1.get k = acc.1.get k := by
  induction l with
  | nil => intro acc k _; rfl
  | cons h rest ih =>
      intro acc k hk
      have hhk : h ≠ k := fun he => hk (he ▸ List.mem_cons_self h rest)
      have hk' : k ∉ rest := fun hm => hk (List.mem_cons_of_mem h hm)
      rw [List.foldl_cons, ih _ k hk']
      exact formatStep_cells_of_ne payload acc h k hhk

theorem fmtFold_mem (payload : CellFormat) (l : List CellId) :
    ∀ (acc : RecM CellId Cell × List Nat) (k : CellId), l.Nodup → k ∈ l →
      (l.foldl (formatStep payload) acc).1.get k =
        some (fmtCell payload (acc.1.get k) k) := by
  induction l with
  | nil => intro acc k _ hk; exact absurd hk (List.not_mem_nil k)
  | cons h rest ih =>
      intro acc k hnd hk
      have hnd' := List.nodup_cons.mp hnd
      by_cases hhk : h = k
      · subst hhk
        rw [List.foldl_cons]
        rw [fmtFold_notmem payload rest _ h hnd'.1]
        exact formatStep_cells_self payload acc h
      · have hk' : k ∈ rest := by
          cases List.mem_cons.mp hk with
          | inl he => exact absurd he.symm hhk
          | inr hm => exact hm
        rw [List.foldl_cons]
        have := ih (formatStep payload acc h) k hnd'.2 hk'
        rw [formatStep_cells_of_ne payload acc h k hhk] at this
        exact this

/-- The record `handleDelete` leaves at one selected key, as a function of the
previous record at that key. -/
def delCell (o : Option Cell) (k : CellId) : Cell :=
  match o with
  | some c => { c with value := "" }
  | none => blankCell k

theorem delCell_value (o : Option Cell) (k : CellId) : (delCell o k).value = "" := by
  cases o <;> rfl

theorem deleteStep_self (cells : RecM CellId Cell) (k : CellId) :
    (deleteStep cells k).get k = some (delCell (cells.get k) k) := by
  unfold deleteStep
  cases h1 : cells.get k with
  | none =>
      simp only [h1]
      rw [RecM.get_set_self]
      rfl
  | some c =>
      simp only [h1]
      rw [RecM.get_set_self]
      rfl

theorem deleteStep_of_ne (cells : RecM CellId Cell) (h k : CellId) (hne : h ≠ k) :
    (deleteStep cells h).get k = cells.get k := by
  unfold deleteStep
  cases h1 : cells.get h with
  | none =>
      simp only [h1]
      exact RecM.get_set_ne _ _ hne
  | some c =>
      simp only [h1]
      exact RecM.get_set_ne _ _ hne

theorem deleteStep_pres (cells : RecM CellId Cell) (h k : CellId) (c : Cell)
    (hc : cells.get k = some c) (hv : c.value = "") :
    (deleteStep cells h).get k = some c := by
  by_cases hne : h = k
  · subst hne
    rw [deleteStep_self cells h, hc]
    show some ({ c with value := "" } : Cell) = some c
    rw [Cell.update_value_eq_self c hv]
  · rw [deleteStep_of_ne cells h k hne]
    exact hc

theorem delFold_pres (l : List CellId) :
    ∀ (cells : RecM CellId Cell) (k : CellId) (c : Cell),
      cells.get k = some c → c.value = "" →
      (l.foldl deleteStep cells).get k = some c := by
  induction l with
  | nil => intro cells k c hc _; exact hc
  | cons h rest ih =>
      intro cells k c hc hv
      exact ih _ k c (deleteStep_pres cells h k c hc hv) hv

theorem delFold_mem (l : List CellId) :
    ∀ (cells : RecM CellId Cell) (k : CellId), k ∈ l →
      (l.foldl deleteStep cells).get k = some (delCell (cells.get k) k) := by
  induction l with
  | nil => intro cells k hk; exact absurd hk (List.not_mem_nil k)
  | cons h rest ih =>
      intro cells k hk
      by_cases hhk : h = k
      · subst hhk
        rw [List.foldl_cons]
        exact delFold_pres rest _ h _ (deleteStep_self cells h) (delCell_value _ h)
      · have hk' : k ∈ rest := by
          cases List.mem_cons.mp hk with
          | inl he => exact absurd he.symm hhk
          | inr hm => exact hm
        rw [List.foldl_cons]
        have := ih (deleteStep cells h) k hk'
        rw [deleteStep_of_ne cells h k hhk] at this
        exact this

theorem delFold_notmem (l : List CellId) :
    ∀ (cells : RecM CellId Cell) (k : CellId), k ∉ l →
      (l.foldl deleteStep cells).get k = cells.get k := by
  induction l with
  | nil => intro cells k _; rfl
  | cons h rest ih =>
      intro cells k hk
      have hhk : h ≠ k := fun he => hk (he ▸ List.mem_cons_self h rest)
      have hk' : k ∉ rest := fun hm => hk (List.mem_cons_of_mem h hm)
      rw [List.foldl_cons, ih _ k hk']
      exact deleteStep_of_ne cells h k hhk

/-- The record `handlePaste` writes at target index `i` (whose key is `k`),
as a function of the clipboard and the wrapped index. -/
def pasteCell (copiedCells : List Cell) (i : Nat) (k : CellId) : Cell :=
  { ((copiedCells.get? (i % copiedCells.length)).getD (blankCell k)) with id := k }

theorem pasteStep_self (copiedCells : List Cell)
    (acc : RecM CellId Cell × List Nat) (i : Nat) (k : CellId) :
    (pasteStep copiedCells acc (i, k)).1.get k =
      some (pasteCell copiedCells i k) :=
  RecM.get_set_self _ _ _

theorem pasteStep_of_ne (copiedCells : List Cell)
    (acc : RecM CellId Cell × List Nat) (p : Nat × CellId) (k : CellId)
    (hne : p.2 ≠ k) :
    (pasteStep copiedCells acc p).1.get k = acc.1.get k :=
  RecM.get_set_ne _ _ hne

theorem pasteFold_notmem (copiedCells : List Cell) (l : List CellId) :
    ∀ (j : Nat) (acc : RecM CellId Cell × List Nat) (k : CellId), k ∉ l →
      ((l.enumFrom j).foldl (pasteStep copiedCells) acc).1.get k = acc.1.get k := by
  induction l with
  | nil => intro j acc k _; rfl
  | cons h rest ih =>
      intro j acc k hk
      have hhk : h ≠ k := fun he => hk (he ▸ List.mem_cons_self h rest)
      have hk' : k ∉ rest := fun hm => hk (List.mem_cons_of_mem h hm)
      show ((rest.enumFrom (j + 1)).foldl (pasteStep copiedCells)
        (pasteStep copiedCells acc (j, h))).1.get k = acc.1.get k
      rw [ih (j + 1) _ k hk']
      exact pasteStep_of_ne copiedCells acc (j, h) k hhk

theorem pasteFold_mem (copiedCells : List Cell) (l : List CellId) :
    ∀ (j : Nat) (acc : RecM CellId Cell × List Nat) (i : Nat) (hi : i < l.length),
      l.Nodup →
      ((l.enumFrom j).foldl (pasteStep copiedCells) acc).1.get (l.get ⟨i, hi⟩) =
        some (pasteCell copiedCells (j + i) (l.get ⟨i, hi⟩)) := by
  induction l with
  | nil => intro j acc i hi _; exact absurd hi (by simp)
  | cons h rest ih =>
      intro j acc i hi hnd
      have hnd' := List.nodup_cons.mp hnd
      cases i with
      | zero =>
          show ((rest.enumFrom (j + 1)).foldl (pasteStep copiedCells)
            (pasteStep copiedCells acc (j, h))).1.get h =
            some (pasteCell copiedCells (j + 0) h)
          rw [pasteFold_notmem copiedCells rest (j + 1) _ h hnd'.1]
          rw [pasteStep_self copiedCells acc j h]
          rfl
      | succ i' =>
          have hi' : i' < rest.length := by
            simp at hi
            omega
          have hget : (h :: rest).get ⟨i' + 1, hi⟩ = rest.get ⟨i', hi'⟩ := rfl
          rw [hget]
          show ((rest.enumFrom (j + 1)).foldl (pasteStep copiedCells)
            (pasteStep copiedCells acc (j, h))).1.get (rest.get ⟨i', hi'⟩) =
            some (pasteCell copiedCells (j + (i' + 1)) (rest.get ⟨i', hi'⟩))
          rw [ih (j + 1) _ i' hi' hnd'.2]
          have : j + 1 + i' = j + (i' + 1) := by omega
          rw [this]

theorem foldl_min_le_init (l : List Nat) : ∀ a : Nat, l.foldl Nat.min a ≤ a := by
  induction l with
  | nil => intro a; exact Nat.le_refl a
  | cons h t ih =>
      intro a
      exact Nat.le_trans (ih (Nat.min a h)) (Nat.min_le_left a h)

theorem foldl_min_le_mem (l : List Nat) :
    ∀ (a x : Nat), x ∈ l → l.foldl Nat.min a ≤ x := by
  induction l with
  | nil => intro a x hx; exact absurd hx (List.not_mem_nil x)
  | cons h t ih =>
      intro a x hx
      cases List.mem_cons.mp hx with
      | inl he =>
          subst he
          exact Nat.le_trans (foldl_min_le_init t (Nat.min a x)) (Nat.min_le_right a x)
      | inr hm => exact ih (Nat.min a h) x hm

theorem listMin_le (l : List Nat) (x : Nat) (hx : x ∈ l) : listMin l ≤ x := by
  cases l with
  | nil => exact absurd hx (List.not_mem_nil x)
  | cons h t =>
      cases List.mem_cons.mp hx with
      | inl he =>
          subst he
          exact foldl_min_le_init t x
      | inr hm => exact foldl_min_le_mem t h x hm

theorem init_le_foldl_max (l : List Nat) : ∀ a : Nat, a ≤ l.foldl Nat.max a := by
  induction l with
  | nil => intro a; exact Nat.le_refl a
  | cons h t ih =>
      intro a
      exact Nat.le_trans (Nat.le_max_left a h) (ih (Nat.max a h))

theorem mem_le_foldl_max (l : List Nat) :
    ∀ (a x : Nat), x ∈ l → x ≤ l.foldl Nat.max a := by
  induction l with
  | nil => intro a x hx; exact absurd hx (List.not_mem_nil x)
  | cons h t ih =>
      intro a x hx
      cases List.mem_cons.mp hx with
      | inl he =>
          subst he
          exact Nat.le_trans (Nat.le_max_right a x) (init_le_foldl_max t (Nat.max a x))
      | inr hm => exact ih (Nat.max a h) x hm

theorem le_listMax (l : List Nat) (x : Nat) (hx : x ∈ l) : x ≤ listMax l := by
  cases l with
  | nil => exact absurd hx (List.not_mem_nil x)
  | cons h t =>
      cases List.mem_cons.mp hx with
      | inl he =>
          subst he
          exact init_le_foldl_max t x
      | inr hm => exact mem_le_foldl_max t h x hm

theorem mem_rectCellIds (row rowSpan col colSpan r c : Nat) :
    (r, c) ∈ rectCellIds row rowSpan col colSpan ↔
      (row ≤ r ∧ r < row + rowSpan ∧ col ≤ c ∧ c < col + colSpan) := by
  unfold rectCellIds
  simp only [List.mem_flatMap, List.mem_map, List.mem_range'_1, Prod.mk.injEq]
  constructor
  · rintro ⟨r', ⟨hr1, hr2⟩, c', ⟨hc1, hc2⟩, he1, he2⟩
    subst he1
    subst he2
    exact ⟨hr1, hr2, hc1, hc2⟩
  · rintro ⟨h1, h2, h3, h4⟩
    exact ⟨r, ⟨h1, h2⟩, c, ⟨h3, h4⟩, rfl, rfl⟩

/-- `Math.min(...rows)` of the supplied keys' rows. -/
def minRowOf (ks : List CellId) : Nat := listMin (ks.map fun id => id.1)

/-- `Math.max(...rows)` of the supplied keys' rows. -/
def maxRowOf (ks : List CellId) : Nat := listMax (ks.map fun id => id.1)

/-- `Math.min(...cols)` of the supplied keys' columns. -/
def minColOf (ks : List CellId) : Nat := listMin (ks.map fun id => id.2)

/-- `Math.max(...cols)` of the supplied keys' columns. -/
def maxColOf (ks : List CellId) : Nat := listMax (ks.map fun id => id.2)

/-- The bounding box's top-left key, `handleMergeCells`' origin. -/
def bboxOrigin (ks : List CellId) : CellId := (minRowOf ks, minColOf ks)

/-- The origin descriptor `handleMergeCells` writes. -/
def bboxOriginDesc (ks : List CellId) : MergedCell :=
  { rowSpan := maxRowOf ks + 1 - minRowOf ks
    colSpan := maxColOf ks + 1 - minColOf ks
    isOrigin := true }

/-- The member descriptor `handleMergeCells` writes. -/
def bboxMemberDesc (ks : List CellId) : MergedCell :=
  { rowSpan := 1, colSpan := 1, isOrigin := false, originCell := some (bboxOrigin ks) }

theorem ensureOriginMerged_get_self (o : CellId) (mc : RecM CellId MergedCell)
    (cells : RecM CellId Cell) :
    (ensureOriginMerged o mc cells).get o =
      some { ((cells.get o).getD (blankCell o)) with merged := mc.get o } := by
  unfold ensureOriginMerged
  cases hx : cells.get o with
  | none =>
      simp only [hx, RecM.get_set_self, RecM.set_set, Option.getD_none]
      rfl
  | some c =>
      simp only [hx, Option.getD_some]
      rw [RecM.get_set_self]

theorem ensureOriginMerged_get_ne (o : CellId) (mc : RecM CellId MergedCell)
    (cells : RecM CellId Cell) (k : CellId) (hne : o ≠ k) :
    (ensureOriginMerged o mc cells).get k = cells.get k := by
  unfold ensureOriginMerged
  cases hx : cells.get o with
  | none =>
      simp only [hx, RecM.get_set_self]
      rw [RecM.get_set_ne _ _ hne, RecM.get_set_ne _ _ hne]
  | some c =>
      simp only [hx]
      rw [RecM.get_set_ne _ _ hne]

/-- Full pointwise description of the active sheet produced by
`handleMergeCells` on ≥ 2 keys: the bounding box's top-left key holds the
origin descriptor (in the tracker and on its record, whose other contents are
preserved, a blank record being created if absent), and every other rectangle
key holds the member descriptor likewise. -/
theorem merge_facts (ks : List CellId) (s : SpreadsheetState) (a : Sheet)
    (hk : 2 ≤ ks.length) (hfind : findSheet s = some a) :
    ∃ a', findSheet (handleMergeCells ks s) = some a' ∧
      a'.mergedCells.get (bboxOrigin ks) = some (bboxOriginDesc ks) ∧
      a'.cells.get (bboxOrigin ks) =
        some { ((a.cells.get (bboxOrigin ks)).getD (blankCell (bboxOrigin ks))) with
               merged := some (bboxOriginDesc ks) } ∧
      (∀ r c : Nat,
        minRowOf ks ≤ r → r ≤ maxRowOf ks → minColOf ks ≤ c → c ≤ maxColOf ks →
        (r, c) ≠ bboxOrigin ks →
        a'.mergedCells.get (r, c) = some (bboxMemberDesc ks) ∧
        a'.cells.get (r, c) =
          some { ((a.cells.get (r, c)).getD (blankCell (r, c))) with
                 merged := some (bboxMemberDesc ks) }) := by
  unfold handleMergeCells
  rw [if_neg (by omega)]
  refine ⟨_, findSheet_updActive _ s a rfl hfind, ?_, ?_, ?_⟩
  · show ((rectCellIds (minRowOf ks) (maxRowOf ks + 1 - minRowOf ks)
        (minColOf ks) (maxColOf ks + 1 - minColOf ks)).foldl
        (mergeStep (bboxOrigin ks) (bboxMemberDesc ks))
        (a.mergedCells.set (bboxOrigin ks) (bboxOriginDesc ks), a.cells)).1.get
        (bboxOrigin ks) = some (bboxOriginDesc ks)
    rw [mergeFold_mc_keep_o]
    exact RecM.get_set_self _ _ _
  · simp only [bboxOrigin, bboxOriginDesc, minRowOf, maxRowOf, minColOf, maxColOf]
    rw [ensureOriginMerged_get_self, mergeFold_cells_keep_o, mergeFold_mc_keep_o]
    rw [RecM.get_set_self]
  · intro r c h1 h2 h3 h4 hne
    simp only [bboxOrigin, bboxOriginDesc, bboxMemberDesc, minRowOf, maxRowOf,
      minColOf, maxColOf] at hne ⊢
    simp only [minRowOf, maxRowOf, minColOf, maxColOf] at h1 h2 h3 h4
    have hmem : ((r, c) : CellId) ∈ rectCellIds
        (listMin (ks.map fun id => id.1))
        (listMax (ks.map fun id => id.1) + 1 - listMin (ks.map fun id => id.1))
        (listMin (ks.map fun id => id.2))
        (listMax (ks.map fun id => id.2) + 1 - listMin (ks.map fun id => id.2)) :=
      (mem_rectCellIds _ _ _ _ r c).mpr ⟨h1, by omega, h3, by omega⟩
    have hne' : ((listMin (ks.map fun id => id.1), listMin (ks.map fun id => id.2)) : CellId) ≠ (r, c) :=
      Ne.symm hne
    constructor
    · exact mergeFold_mc_mem _ _ _ _ _ hmem hne
    · rw [ensureOriginMerged_get_ne _ _ _ _ hne']
      exact mergeFold_cells_mem _ _ _ _ _ hmem hne


/-! ## Claim C5: mergeCells semantics -/

/-- Claim C5: `handleMergeCells` with fewer than 2 keys is a complete no-op;
the UI gate `canMergeCells` rejects (returns false for) a selection of fewer
than 2 keys or one containing a key that already carries a merge descriptor;
and on ≥ 2 keys the handler writes the origin descriptor at the bounding
box's top-left key and member descriptors at every other key of the bounding
box — also at keys the caller did not supply — creating blank records where
none existed. -/
theorem claimC5_mergeCells :
    (∀ (ks : List CellId) (s : SpreadsheetState), ks.length < 2 →
      handleMergeCells ks s = s) ∧
    (∀ (sel : List CellId) (sheet : Sheet),
      (sel.length < 2 ∨ ∃ k ∈ sel, (sheet.mergedCells.get k).isSome = true) →
      canMergeCells sel sheet = false) ∧
    (∀ (ks : List CellId) (s : SpreadsheetState) (a : Sheet),
      2 ≤ ks.length → findSheet s = some a →
      ∃ a', findSheet (handleMergeCells ks s) = some a' ∧
        a'.mergedCells.get (bboxOrigin ks) = some (bboxOriginDesc ks) ∧
        a'.cells.get (bboxOrigin ks) =
          some { ((a.cells.get (bboxOrigin ks)).getD (blankCell (bboxOrigin ks))) with
                 merged := some (bboxOriginDesc ks) } ∧
        (∀ r c : Nat, minRowOf ks ≤ r → r ≤ maxRowOf ks → minColOf ks ≤ c →
          c ≤ maxColOf ks → (r, c) ≠ bboxOrigin ks →
          a'.mergedCells.get (r, c) = some (bboxMemberDesc ks) ∧
          a'.cells.get (r, c) =
            some { ((a.cells.get (r, c)).getD (blankCell (r, c))) with
                   merged := some (bboxMemberDesc ks) })) := by
  refine ⟨?_, ?_, ?_⟩
  · intro ks s hk
    unfold handleMergeCells
    rw [if_pos hk]
  · intro sel sheet h
    unfold canMergeCells
    cases h with
    | inl hlen => rw [if_pos hlen]
    | inr hex =>
        by_cases hlen : sel.length < 2
        · rw [if_pos hlen]
        · rw [if_neg hlen]
          have hany : (sel.any fun cellId => (sheet.mergedCells.get cellId).isSome) = true :=
            List.any_eq_true.mpr (by
              obtain ⟨k, hkm, hs⟩ := hex
              exact ⟨k, hkm, hs⟩)
          simp only [hany, if_true]
  · intro ks s a hk hfind
    exact merge_facts ks s a hk hfind

/-- A sheet whose (0,0) already carries a merge descriptor. -/
def cexMergedSheet : Sheet :=
  { cexSheet with
    mergedCells := [((0, 0), { rowSpan := 1, colSpan := 1, isOrigin := true })] }

/-- Witness for C5: the sub-2 no-op, the gate rejecting an already-merged
key, and a concrete non-rectangular 2-key merge `[(0,0),(1,1)]` writing a
member descriptor at the unselected bounding-box key `(0,1)`. -/
theorem claimC5_witness :
    handleMergeCells [(0, 0)] cexState = cexState ∧
    canMergeCells [(0, 0), (0, 1)] cexMergedSheet = false ∧
    (∃ a', findSheet (handleMergeCells [(0, 0), (1, 1)] cexState) = some a' ∧
      a'.mergedCells.get (bboxOrigin [(0, 0), (1, 1)]) =
        some (bboxOriginDesc [(0, 0), (1, 1)]) ∧
      a'.mergedCells.get (0, 1) = some (bboxMemberDesc [(0, 0), (1, 1)])) := by
  refine ⟨claimC5_mergeCells.1 [(0, 0)] cexState (by decide),
    claimC5_mergeCells.2.1 [(0, 0), (0, 1)] cexMergedSheet
      (Or.inr ⟨(0, 0), by decide, by decide⟩), ?_⟩
  obtain ⟨a', h1, h2, h3, h4⟩ :=
    claimC5_mergeCells.2.2 [(0, 0), (1, 1)] cexState cexSheet (by decide) (by decide)
  exact ⟨a', h1, h2, (h4 0 1 (by decide) (by decide) (by decide) (by decide) (by decide)).1⟩

/-! ## Claim C6: merge/unmerge round trip -/

/-- The effective (read) value of a key: absent cells read as blank, per the
sparse-storage read-equivalence of the data model. -/
def valueEff (sheet : Sheet) (k : CellId) : String :=
  ((sheet.cells.get k).map Cell.value).getD ""

theorem getD_blank_value (o : Option Cell) (k : CellId) :
    (o.getD (blankCell k)).value = (o.map Cell.value).getD "" := by
  cases o <;> rfl

/-- Claim C6 (with the claim's premise that no bounding-box key carries a
merge descriptor): merging ≥ 2 keys and then unmerging at the resulting
origin leaves every bounding-box key with no merge descriptor — in the
tracker and on the cell records — and preserves every key's effective
value. -/
theorem claimC6_merge_unmerge_roundtrip (ks : List CellId) (s : SpreadsheetState)
    (a : Sheet) (hk : 2 ≤ ks.length) (hfind : findSheet s = some a)
    (hfree : ∀ r c : Nat, minRowOf ks ≤ r → r ≤ maxRowOf ks →
      minColOf ks ≤ c → c ≤ maxColOf ks →
      a.mergedCells.get (r, c) = none ∧
      (∀ cc : Cell, a.cells.get (r, c) = some cc → cc.merged = none)) :
    ∃ a2, findSheet (handleUnmergeCells [bboxOrigin ks] (handleMergeCells ks s)) =
        some a2 ∧
      ∀ r c : Nat, minRowOf ks ≤ r → r ≤ maxRowOf ks →
        minColOf ks ≤ c → c ≤ maxColOf ks →
        a2.mergedCells.get (r, c) = none ∧
        (∀ c2 : Cell, a2.cells.get (r, c) = some c2 → c2.merged = none) ∧
        valueEff a2 (r, c) = valueEff a (r, c) := by
  obtain ⟨a1, hfind1, hmcO, hcellO, hmem⟩ := merge_facts ks s a hk hfind
  simp only [bboxOrigin, bboxOriginDesc, bboxMemberDesc] at hmcO hcellO hmem
  unfold handleUnmergeCells
  refine ⟨_, findSheet_updActive _ (handleMergeCells ks s) a1 rfl hfind1, ?_⟩
  intro r c h1 h2 h3 h4
  simp only [List.foldl_cons, List.foldl_nil, bboxOrigin, hmcO, eq_self_iff_true,
    if_true]
  have hmem' : ((r, c) : CellId) ∈ rectCellIds (minRowOf ks)
      (maxRowOf ks + 1 - minRowOf ks) (minColOf ks) (maxColOf ks + 1 - minColOf ks) :=
    (mem_rectCellIds _ _ _ _ r c).mpr ⟨h1, by omega, h3, by omega⟩
  refine ⟨?_, ?_, ?_⟩
  · exact clearFold_mc_mem _ _ _ hmem'
  · intro c2 hc2
    rw [clearFold_cells_mem _ _ _ hmem'] at hc2
    by_cases hco : ((r, c) : CellId) = (minRowOf ks, minColOf ks)
    · rw [hco, hcellO] at hc2
      simp only [Option.map_some'] at hc2
      rw [← Option.some_inj.mp hc2]
    · rw [(hmem r c h1 h2 h3 h4 hco).2] at hc2
      simp only [Option.map_some'] at hc2
      rw [← Option.some_inj.mp hc2]
  · show valueEff _ (r, c) = valueEff a (r, c)
    unfold valueEff
    rw [clearFold_cells_mem _ _ _ hmem']
    by_cases hco : ((r, c) : CellId) = (minRowOf ks, minColOf ks)
    · rw [hco, hcellO]
      simp only [Option.map_some', Option.getD_some]
      rw [← hco]
      exact getD_blank_value _ _
    · rw [(hmem r c h1 h2 h3 h4 hco).2]
      simp only [Option.map_some', Option.getD_some]
      exact getD_blank_value _ _

/-- Witness for C6 at the concrete rectangle `[(0,0),(0,1)]` of the
one-sheet workbook. -/
theorem claimC6_witness :
    ∃ a2, findSheet (handleUnmergeCells [bboxOrigin [(0, 0), (0, 1)]]
        (handleMergeCells [(0, 0), (0, 1)] cexState)) = some a2 ∧
      ∀ r c : Nat, minRowOf [(0, 0), (0, 1)] ≤ r → r ≤ maxRowOf [(0, 0), (0, 1)] →
        minColOf [(0, 0), (0, 1)] ≤ c → c ≤ maxColOf [(0, 0), (0, 1)] →
        a2.mergedCells.get (r, c) = none ∧
        (∀ c2 : Cell, a2.cells.get (r, c) = some c2 → c2.merged = none) ∧
        valueEff a2 (r, c) = valueEff cexSheet (r, c) :=
  claimC6_merge_unmerge_roundtrip [(0, 0), (0, 1)] cexState cexSheet (by decide)
    (by decide)
    (by
      intro r c h1 h2 h3 h4
      rw [show maxRowOf [(0, 0), (0, 1)] = 0 from by decide] at h2
      rw [show maxColOf [(0, 0), (0, 1)] = 1 from by decide] at h4
      have hr : r = 0 := by omega
      subst hr
      have hc : c = 0 ∨ c = 1 := by omega
      refine ⟨by rcases hc with h | h <;> subst h <;> decide, ?_⟩
      intro cc hcc
      rcases hc with h | h <;> subst h
      · rw [show cexSheet.cells.get (0, 0) =
            some { id := (0, 0), value := "x" } from by decide] at hcc
        rw [← Option.some_inj.mp hcc]
      · rw [show cexSheet.cells.get (0, 1) = none from by decide] at hcc
        exact Option.noConfusion hcc)

/-! ## Claim C4: applyFormat boolean toggle semantics -/

/-- Pointwise description of one `handleCellFormatChange` application: every
selected key's record becomes `fmtCell`, every other key is untouched. -/
theorem format_apply_sheet (ks : List CellId) (fmt : CellFormat)
    (s : SpreadsheetState) (a : Sheet) (hfind : findSheet s = some a) :
    ∃ a', findSheet (handleCellFormatChange ks fmt s) = some a' ∧
      (∀ k : CellId, ks.Nodup → k ∈ ks →
        a'.cells.get k = some (fmtCell fmt (a.cells.get k) k)) ∧
      (∀ k : CellId, k ∉ ks → a'.cells.get k = a.cells.get k) := by
  unfold handleCellFormatChange
  refine ⟨_, findSheet_updActive _ (saveToHistoryFn s) a rfl hfind, ?_, ?_⟩
  · intro k hnd hk
    exact fmtFold_mem fmt ks (a.cells, []) k hnd hk
  · intro k hk
    exact fmtFold_notmem fmt ks (a.cells, []) k hk

theorem setTog_of_some (p : Option Bool) (e : Bool) (hp : p.isSome = true) :
    setTog p (some e) = some (!e) := by
  cases p with
  | none => exact absurd hp (by simp)
  | some v => rfl

/-- The effective (default-false) boolean read of a cell's `bold` flag on the
active sheet. -/
def effBold (s : SpreadsheetState) (k : CellId) : Bool :=
  match findSheet s with
  | some a => (((a.cells.get k).bind Cell.format).bind CellFormat.bold).getD false
  | none => false

/-- Amended claim C4: (a) for every selected key and every boolean-typed
field present in the payload, when the cell's existing format already holds a
boolean at that field the new value is its logical negation — the payload's
literal value is ignored — and otherwise the literal payload value is
written; (b) applying the toggle payload `{bold: true}` twice to a cell whose
format does not hold `bold` returns the field's effective (default-false)
value to what it was; (c) applying any `bold` payload twice to a cell whose
format already holds a boolean at `bold` restores the stored value.  (The
original claim's "applying the same boolean toggle twice to an untouched cell
returns the field to its original boolean value" fails for the payload
`{bold: false}` — see the counterexample.) -/
theorem claimC4_format_toggles :
    (∀ (s : SpreadsheetState) (ks : List CellId) (fmt : CellFormat) (a : Sheet)
      (k : CellId), findSheet s = some a → ks.Nodup → k ∈ ks →
      ∃ a' f', findSheet (handleCellFormatChange ks fmt s) = some a' ∧
        (a'.cells.get k).bind Cell.format = some f' ∧
        (∀ e : Bool,
          (((a.cells.get k).getD (blankCell k)).format.getD {}).bold = some e →
          fmt.bold.isSome = true → f'.bold = some (!e)) ∧
        ((((a.cells.get k).getD (blankCell k)).format.getD {}).bold = none →
          ∀ v : Bool, fmt.bold = some v → f'.bold = some v) ∧
        (∀ e : Bool,
          (((a.cells.get k).getD (blankCell k)).format.getD {}).italic = some e →
          fmt.italic.isSome = true → f'.italic = some (!e)) ∧
        ((((a.cells.get k).getD (blankCell k)).format.getD {}).italic = none →
          ∀ v : Bool, fmt.italic = some v → f'.italic = some v) ∧
        (∀ e : Bool,
          (((a.cells.get k).getD (blankCell k)).format.getD {}).underline = some e →
          fmt.underline.isSome = true → f'.underline = some (!e)) ∧
        ((((a.cells.get k).getD (blankCell k)).format.getD {}).underline = none →
          ∀ v : Bool, fmt.underline = some v → f'.underline = some v) ∧
        (∀ e : Bool,
          (((a.cells.get k).getD (blankCell k)).format.getD {}).strikethrough = some e →
          fmt.strikethrough.isSome = true → f'.strikethrough = some (!e)) ∧
        ((((a.cells.get k).getD (blankCell k)).format.getD {}).strikethrough = none →
          ∀ v : Bool, fmt.strikethrough = some v → f'.strikethrough = some v)) ∧
    (∀ (s : SpreadsheetState) (a : Sheet) (k : CellId), findSheet s = some a →
      (((a.cells.get k).getD (blankCell k)).format.getD {}).bold = none →
      effBold (handleCellFormatChange [k] { bold := some true }
        (handleCellFormatChange [k] { bold := some true } s)) k = effBold s k) ∧
    (∀ (s : SpreadsheetState) (a : Sheet) (k : CellId) (e v₁ v₂ : Bool),
      findSheet s = some a →
      (((a.cells.get k).getD (blankCell k)).format.getD {}).bold = some e →
      ∃ a2, findSheet (handleCellFormatChange [k] { bold := some v₂ }
          (handleCellFormatChange [k] { bold := some v₁ } s)) = some a2 ∧
        ((a2.cells.get k).bind Cell.format).bind CellFormat.bold = some e) := by
  refine ⟨?_, ?_, ?_⟩
  · intro s ks fmt a k hfind hnd hk
    obtain ⟨a', hfind', hmem, _⟩ := format_apply_sheet ks fmt s a hfind
    refine ⟨a', applyFormatPayload (((a.cells.get k).getD (blankCell k)).format.getD {}) fmt,
      hfind', ?_, ?_, ?_, ?_, ?_, ?_, ?_, ?_, ?_⟩
    · rw [hmem k hnd hk]
      rfl
    · intro e he hp
      show setTog fmt.bold (((a.cells.get k).getD (blankCell k)).format.getD {}).bold = _
      rw [he]
      exact setTog_of_some _ _ hp
    · intro hn v hv
      show setTog fmt.bold (((a.cells.get k).getD (blankCell k)).format.getD {}).bold = _
      rw [hn, hv]
      rfl
    · intro e he hp
      show setTog fmt.italic (((a.cells.get k).getD (blankCell k)).format.getD {}).italic = _
      rw [he]
      exact setTog_of_some _ _ hp
    · intro hn v hv
      show setTog fmt.italic (((a.cells.get k).getD (blankCell k)).format.getD {}).italic = _
      rw [hn, hv]
      rfl
    · intro e he hp
      show setTog fmt.underline (((a.cells.get k).getD (blankCell k)).format.getD {}).underline = _
      rw [he]
      exact setTog_of_some _ _ hp
    · intro hn v hv
      show setTog fmt.underline (((a.cells.get k).getD (blankCell k)).format.getD {}).underline = _
      rw [hn, hv]
      rfl
    · intro e he hp
      show setTog fmt.strikethrough (((a.cells.get k).getD (blankCell k)).format.getD {}).strikethrough = _
      rw [he]
      exact setTog_of_some _ _ hp
    · intro hn v hv
      show setTog fmt.strikethrough (((a.cells.get k).getD (blankCell k)).format.getD {}).strikethrough = _
      rw [hn, hv]
      rfl
  · intro s a k hfind hbold
    obtain ⟨a1, hfind1, hmem1, _⟩ :=
      format_apply_sheet [k] { bold := some true } s a hfind
    obtain ⟨a2, hfind2, hmem2, _⟩ :=
      format_apply_sheet [k] { bold := some true } _ a1 hfind1
    unfold effBold
    rw [hfind2, hfind]
    show (((a2.cells.get k).bind Cell.format).bind CellFormat.bold).getD false =
      (((a.cells.get k).bind Cell.format).bind CellFormat.bold).getD false
    rw [hmem2 k (by simp) (by simp), hmem1 k (by simp) (by simp)]
    show ((some (applyFormatPayload ((fmtCell { bold := some true } (a.cells.get k) k).format.getD {})
        { bold := some true })).bind CellFormat.bold).getD false = _
    show (applyFormatPayload ((fmtCell { bold := some true } (a.cells.get k) k).format.getD {})
        { bold := some true }).bold.getD false = _
    show (setTog (some true)
        (applyFormatPayload (((a.cells.get k).getD (blankCell k)).format.getD {})
          { bold := some true }).bold).getD false = _
    show (setTog (some true)
        (setTog (some true) (((a.cells.get k).getD (blankCell k)).format.getD {}).bold)).getD false = _
    rw [hbold]
    show (some false).getD false = _
    cases hcc : a.cells.get k with
    | none => rfl
    | some cc =>
        cases hcf : cc.format with
        | none => simp [hcf]
        | some f =>
            have : f.bold = none := by
              have := hbold
              rw [hcc] at this
              simp only [Option.getD_some] at this
              rw [hcf] at this
              simpa using this
            simp [hcc, hcf, this]
  · intro s a k e v₁ v₂ hfind hbold
    obtain ⟨a1, hfind1, hmem1, _⟩ := format_apply_sheet [k] { bold := some v₁ } s a hfind
    obtain ⟨a2, hfind2, hmem2, _⟩ := format_apply_sheet [k] { bold := some v₂ } _ a1 hfind1
    refine ⟨a2, hfind2, ?_⟩
    rw [hmem2 k (by simp) (by simp), hmem1 k (by simp) (by simp)]
    show (setTog (some v₂)
        (setTog (some v₁) (((a.cells.get k).getD (blankCell k)).format.getD {}).bold)) = _
    rw [hbold]
    show some (!!e) = some e
    rw [Bool.not_not]

/-- Claim C4 counterexample: applying the boolean payload `{bold: false}`
twice to an untouched cell leaves `bold` explicitly `true`, not the original
(default-false) value — the first application writes the literal `false`, the
second negates it. -/
theorem claimC4_counterexample :
    effBold (handleCellFormatChange [(5, 5)] { bold := some false }
        (handleCellFormatChange [(5, 5)] { bold := some false } cexState)) (5, 5) ≠
      effBold cexState (5, 5) := by
  decide

/-- A one-sheet workbook whose (0,0) already has `bold := some true`. -/
def cexBoldSheet : Sheet :=
  { cexSheet with
    cells := [((0, 0),
      { id := (0, 0), value := "x", format := some { bold := some true } })] }

/-- The workbook around `cexBoldSheet`. -/
def cexStateBold : SpreadsheetState :=
  { cexState with sheets := [cexBoldSheet] }

/-- Witness for C4: the negation semantics at a cell that already holds
`bold = true`, the double-`{bold: true}` toggle on an untouched cell, and the
double-application restore on an already-boolean cell. -/
theorem claimC4_witness :
    (∃ a' f', findSheet (handleCellFormatChange [(0, 0)] { bold := some true }
        cexStateBold) = some a' ∧
      (a'.cells.get (0, 0)).bind Cell.format = some f' ∧
      f'.bold = some false) ∧
    effBold (handleCellFormatChange [(5, 5)] { bold := some true }
      (handleCellFormatChange [(5, 5)] { bold := some true } cexState)) (5, 5) =
      effBold cexState (5, 5) ∧
    (∃ a2, findSheet (handleCellFormatChange [(0, 0)] { bold := some false }
        (handleCellFormatChange [(0, 0)] { bold := some true } cexStateBold)) = some a2 ∧
      ((a2.cells.get (0, 0)).bind Cell.format).bind CellFormat.bold = some true) := by
  refine ⟨?_, ?_, ?_⟩
  · obtain ⟨a', f', hfind', hf', hneg, _⟩ :=
      claimC4_format_toggles.1 cexStateBold [(0, 0)] { bold := some true }
        cexBoldSheet (0, 0) (by decide) (by simp) (by simp)
    exact ⟨a', f', hfind', hf', by
      have := hneg true (by decide) (by decide)
      simpa using this⟩
  · exact claimC4_format_toggles.2.1 cexState cexSheet (5, 5) (by decide) (by decide)
  · exact claimC4_format_toggles.2.2 cexStateBold cexBoldSheet (0, 0) true true false
      (by decide) (by decide)

/-! ## Claim C7: paste semantics -/

/-- Claim C7 (amended): with a non-empty clipboard and a duplicate-free
selection, target index `i` receives `{ ...copiedCells[i % copiedCells.length],
id: cellId }` and unselected keys are untouched, with selection and clipboard
unchanged; with an empty clipboard the sheet update is skipped, but
`saveToHistory()` has already run unconditionally, so paste equals exactly the
history push and is not a full no-op. -/
theorem claimC7_paste (s : SpreadsheetState) (a : Sheet) :
    (s.copiedCells = [] → handlePaste s = saveToHistoryFn s) ∧
    (s.copiedCells ≠ [] → s.selectedCells.Nodup → findSheet s = some a →
      ∃ a', findSheet (handlePaste s) = some a' ∧
        (∀ (i : Nat) (hi : i < s.selectedCells.length),
          a'.cells.get (s.selectedCells.get ⟨i, hi⟩) =
            some (pasteCell s.copiedCells i (s.selectedCells.get ⟨i, hi⟩))) ∧
        (∀ k : CellId, k ∉ s.selectedCells → a'.cells.get k = a.cells.get k) ∧
        (handlePaste s).selectedCells = s.selectedCells ∧
        (handlePaste s).copiedCells = s.copiedCells) := by
  constructor
  · intro hemp
    have h0 : (saveToHistoryFn s).copiedCells.length = 0 := by
      rw [saveToHistoryFn_copiedCells, hemp]
      rfl
    unfold handlePaste handlePasteCore
    rw [if_pos h0]
  · intro hne hnd hfind
    have hfind' : findSheet (saveToHistoryFn s) = some a := by
      rw [findSheet_save]; exact hfind
    have hlen : ¬(saveToHistoryFn s).copiedCells.length = 0 := by
      rw [saveToHistoryFn_copiedCells]
      exact fun h => hne (List.length_eq_zero.mp h)
    unfold handlePaste handlePasteCore
    rw [if_neg hlen]
    refine ⟨_, findSheet_updActive _ (saveToHistoryFn s) a rfl hfind', ?_, ?_, ?_, ?_⟩
    · intro i hi
      show ((s.selectedCells.enumFrom 0).foldl (pasteStep s.copiedCells)
        (a.cells, ([] : List Nat))).1.get (s.selectedCells.get ⟨i, hi⟩) =
        some (pasteCell s.copiedCells i (s.selectedCells.get ⟨i, hi⟩))
      have h := pasteFold_mem s.copiedCells s.selectedCells 0 (a.cells, []) i hi hnd
      simpa using h
    · intro k hk
      show ((s.selectedCells.enumFrom 0).foldl (pasteStep s.copiedCells)
        (a.cells, ([] : List Nat))).1.get k = a.cells.get k
      exact pasteFold_notmem s.copiedCells s.selectedCells 0 _ k hk
    · rw [updActive_selectedCells, saveToHistoryFn_selectedCells]
    · rw [updActive_copiedCells, saveToHistoryFn_copiedCells]

/-- Claim C7 counterexample: `paste` with an empty clipboard is **not** a
no-op — `cexState` has `copiedCells = []`, yet `handlePaste` changes the
state (the unconditional `saveToHistory()` grows the history). -/
theorem claimC7_counterexample :
    handlePaste cexState ≠ cexState := by decide

/-- A workbook with a two-cell clipboard and a three-key target selection, for
exercising the modulo wraparound. -/
def cexPasteState : SpreadsheetState :=
  { cexState with
    selectedCells := [(0, 0), (0, 1), (1, 0)]
    copiedCells := [{ id := (9, 9), value := "c" }, { id := (9, 10), value := "d" }] }

/-- Witness for C7: the empty-clipboard case on `cexState`, and the non-empty
case on `cexPasteState`, where target index 2 wraps around to clipboard
index 0 and an unselected key is untouched. -/
theorem claimC7_witness :
    handlePaste cexState = saveToHistoryFn cexState ∧
    (∃ a', findSheet (handlePaste cexPasteState) = some a' ∧
      a'.cells.get (1, 0) = some (pasteCell cexPasteState.copiedCells 2 (1, 0)) ∧
      a'.cells.get (5, 5) = cexSheet.cells.get (5, 5)) := by
  constructor
  · exact (claimC7_paste cexState cexSheet).1 rfl
  · obtain ⟨a', hfind, hmem, hnotmem, _, _⟩ :=
      (claimC7_paste cexPasteState cexSheet).2 (by decide) (by decide) (by decide)
    exact ⟨a', hfind, hmem 2 (by decide), hnotmem (5, 5) (by decide)⟩

/-! ## Claim C9: deleteSelection semantics -/

/-- Claim C9 (amended): for every selected key whose record exists, `value`
becomes the empty string with every other field untouched; unselected keys are
untouched; but for a selected key with **no** record the handler's `else`
branch writes a blank record `{ id, value: "" }`, so the key does not stay
absent from storage. -/
theorem claimC9_delete (s : SpreadsheetState) (a : Sheet)
    (hfind : findSheet s = some a) :
    ∃ a', findSheet (handleDelete s) = some a' ∧
      (∀ k ∈ s.selectedCells, ∀ c : Cell, a.cells.get k = some c →
        a'.cells.get k = some { c with value := "" }) ∧
      (∀ k ∈ s.selectedCells, a.cells.get k = none →
        a'.cells.get k = some (blankCell k)) ∧
      (∀ k : CellId, k ∉ s.selectedCells → a'.cells.get k = a.cells.get k) := by
  have hfind' : findSheet (saveToHistoryFn s) = some a := by
    rw [findSheet_save]; exact hfind
  unfold handleDelete handleDeleteCore
  refine ⟨_, findSheet_updActive _ (saveToHistoryFn s) a rfl hfind', ?_, ?_, ?_⟩
  · intro k hk c hc
    show (s.selectedCells.foldl deleteStep a.cells).get k = some { c with value := "" }
    rw [delFold_mem s.selectedCells a.cells k hk, hc]
    rfl
  · intro k hk hc
    show (s.selectedCells.foldl deleteStep a.cells).get k = some (blankCell k)
    rw [delFold_mem s.selectedCells a.cells k hk, hc]
    rfl
  · intro k hk
    show (s.selectedCells.foldl deleteStep a.cells).get k = a.cells.get k
    exact delFold_notmem s.selectedCells a.cells k hk

/-- A workbook whose only selected key (5,5) has no cell record. -/
def cexDelState : SpreadsheetState :=
  { cexState with selectedCells := [(5, 5)] }

/-- Claim C9 counterexample: deleting a selection whose key never had a record
creates a blank record at that key — the key does **not** stay absent from
storage. -/
theorem claimC9_counterexample :
    ((findSheet (handleDelete cexDelState)).bind fun a => a.cells.get (5, 5)) =
      some (blankCell (5, 5)) := by decide

/-- Witness for C9: on `cexState`, deleting the selection clears the value of
the existing record at (0,0) and leaves the unselected key (7,7) untouched. -/
theorem claimC9_witness :
    ∃ a', findSheet (handleDelete cexState) = some a' ∧
      a'.cells.get (0, 0) = some (blankCell (0, 0)) ∧
      a'.cells.get (7, 7) = cexSheet.cells.get (7, 7) := by
  obtain ⟨a', hfind, hmem, _, hnot⟩ := claimC9_delete cexState cexSheet (by decide)
  exact ⟨a', hfind, hmem (0, 0) (by decide) { id := (0, 0), value := "x" } (by decide),
    hnot (7, 7) (by decide)⟩

/-! ## Claim C8: copy stores references, not value copies -/

theorem copyStepH_fst_append (cells : RecM CellId Addr)
    (acc : List Addr × RecM Addr Cell × Addr) (k : CellId) :
    ∃ x, (copyStepH cells acc k).1 = acc.1 ++ [x] := by
  unfold copyStepH
  cases cells.get k with
  | some addr => exact ⟨addr, rfl⟩
  | none => exact ⟨acc.2.2, rfl⟩

theorem copyFoldH_keep_front (cells : RecM CellId Addr) (l : List CellId) :
    ∀ (acc : List Addr × RecM Addr Cell × Addr) (j : Nat), j < acc.1.length →
      (l.foldl (copyStepH cells) acc).1.get? j = acc.1.get? j := by
  induction l with
  | nil => intro acc j _; rfl
  | cons h rest ih =>
      intro acc j hj
      obtain ⟨x, hx⟩ := copyStepH_fst_append cells acc h
      have hlt : j < (copyStepH cells acc h).1.length := by
        rw [hx, List.length_append, List.length_singleton]; omega
      rw [List.foldl_cons, ih _ j hlt, hx, List.get?_eq_getElem?,
        List.get?_eq_getElem?]
      exact List.getElem?_append_left hj

theorem copyFoldH_get (cells : RecM CellId Addr) (l : List CellId) :
    ∀ (acc : List Addr × RecM Addr Cell × Addr) (i : Nat) (hi : i < l.length)
      (addr : Addr), cells.get (l.get ⟨i, hi⟩) = some addr →
      (l.foldl (copyStepH cells) acc).1.get? (acc.1.length + i) = some addr := by
  induction l with
  | nil => intro acc i hi addr _; exact absurd hi (by simp)
  | cons h rest ih =>
      intro acc i hi addr haddr
      rw [List.foldl_cons]
      cases i with
      | zero =>
          have haddr2 : cells.get h = some addr := haddr
          have hstep : (copyStepH cells acc h).1 = acc.1 ++ [addr] := by
            unfold copyStepH
            rw [haddr2]
          rw [copyFoldH_keep_front cells rest _ (acc.1.length + 0)
            (by rw [hstep, List.length_append, List.length_singleton]; omega)]
          rw [hstep, Nat.add_zero, List.get?_eq_getElem?]
          exact List.getElem?_concat_length acc.1 addr
      | succ n =>
          have hn : n < rest.length := by
            simp at hi
            omega
          have haddr2 : cells.get (rest.get ⟨n, hn⟩) = some addr := haddr
          have h2 := ih (copyStepH cells acc h) n hn addr haddr2
          obtain ⟨x, hx⟩ := copyStepH_fst_append cells acc h
          have hlen : (copyStepH cells acc h).1.length = acc.1.length + 1 := by
            rw [hx, List.length_append, List.length_singleton]
          rw [hlen] at h2
          have harith : acc.1.length + (n + 1) = acc.1.length + 1 + n := by omega
          rw [harith]
          exact h2

/-- Claim C8 (amended): copy changes no sheet and appends no history entry,
and `copiedCells` is the selection-ordered list of the current records (blank
placeholders for unpopulated keys) in the value model; but in the heap model
the clipboard stores, for every selected key holding a record, the sheet's own
reference (address) — a reference capture, not a decoupled value copy, so an
in-place mutation through the sheet (as `handleMergeCells` performs) changes
the already-captured clipboard entry. -/
theorem claimC8_copy (s : SpreadsheetState) (a : Sheet) (hs : HState)
    (ha : HSheet) :
    (handleCopy s).sheets = s.sheets ∧
    (handleCopy s).history = s.history ∧
    (handleCopy s).historyIndex = s.historyIndex ∧
    (findSheet s = some a →
      (handleCopy s).copiedCells =
        s.selectedCells.map fun k => (a.cells.get k).getD (blankCell k)) ∧
    (HState.findSheet hs = some ha →
      (handleCopyH hs).sheets = hs.sheets ∧
      (∀ (i : Nat) (hi : i < hs.selectedCells.length) (addr : Addr),
        ha.cells.get (hs.selectedCells.get ⟨i, hi⟩) = some addr →
        (handleCopyH hs).copiedCells.get? i = some addr)) := by
  refine ⟨?_, ?_, ?_, ?_, ?_⟩
  · unfold handleCopy
    cases hf : findSheet s <;> rfl
  · unfold handleCopy
    cases hf : findSheet s <;> rfl
  · unfold handleCopy
    cases hf : findSheet s <;> rfl
  · intro hfind
    unfold handleCopy
    rw [hfind]
    rfl
  · intro hfindH
    constructor
    · unfold handleCopyH
      rw [hfindH]
    · intro i hi addr haddr
      unfold handleCopyH
      rw [hfindH]
      show (hs.selectedCells.foldl (copyStepH ha.cells)
        (([] : List Addr), hs.heap, hs.nextAddr)).1.get? i = some addr
      have h := copyFoldH_get ha.cells hs.selectedCells
        (([] : List Addr), hs.heap, hs.nextAddr) i hi addr haddr
      simpa using h

/-- A one-sheet heap-model workbook: key (0,0) holds address 0, whose record
has value "x". -/
def cexHSheet : HSheet :=
  { id := "sheet-1", cells := [((0, 0), 0)], mergedCells := [] }

/-- The heap-model workbook around `cexHSheet`. -/
def cexHState : HState :=
  { sheets := [cexHSheet]
    activeSheetId := "sheet-1"
    selectedCells := [(0, 0)]
    copiedCells := []
    heap := [(0, { id := (0, 0), value := "x" })]
    nextAddr := 1 }

/-- Claim C8 counterexample: after copying (0,0), merging (0,0)–(0,1) writes
the merge descriptor in place through the shared reference, so the contents of
the already-captured clipboard entry 0 change — the snapshot is not decoupled
from the sheet. -/
theorem claimC8_counterexample :
    readCopied (handleMergeCellsH [(0, 0), (0, 1)] (handleCopyH cexHState)) 0 ≠
      readCopied (handleCopyH cexHState) 0 := by decide

/-- Witness for C8: on `cexState` the value-model facts, and on `cexHState`
clipboard entry 0 holds exactly the sheet's stored address 0. -/
theorem claimC8_witness :
    (handleCopy cexState).sheets = cexState.sheets ∧
    (handleCopy cexState).history = cexState.history ∧
    (handleCopy cexState).copiedCells =
      cexState.selectedCells.map (fun k => (cexSheet.cells.get k).getD (blankCell k)) ∧
    (handleCopyH cexHState).copiedCells.get? 0 = some 0 := by
  obtain ⟨hsheets, hhist, _, hsnap, hH⟩ :=
    claimC8_copy cexState cexSheet cexHState cexHSheet
  exact ⟨hsheets, hhist, hsnap (by decide),
    (hH (by decide)).2 0 (by decide) 0 (by decide)⟩
